import Mathlib

/-!
Shallow embedding of the RoastArena battle-session orchestrator
(backend socket server and the OpenAI judging service), together with
theorems checking the specification's claims against the code.

The embedding translates the TypeScript server state into explicit
state-passing Lean functions.  Timers and randomness are made explicit:
a timer handle is a `Nat` token, a `Math.random()` draw becomes a
function parameter, and each `setTimeout` continuation is a separate
function applied to the state current when the continuation runs.
Effects (socket emissions, database writes, oracle calls, scheduled
cleanups) are collected in an `Effects` record.
-/

namespace RoastArena

/-- The two sides of a roast topic (`'option1' | 'option2'`). -/
inductive Side
  | option1
  | option2
deriving DecidableEq, Repr

/-- One side of a topic: display text and a 1-10 difficulty rating. -/
structure TopicOption where
  text : String
  difficulty : Int
deriving DecidableEq, Repr

/-- A roast topic as produced by the content oracle. -/
structure Topic where
  topic : String
  option1 : TopicOption
  option2 : TopicOption
deriving DecidableEq, Repr

/-- `topicData[side]` indexing used by `judgeBattle`. -/
def Topic.side (t : Topic) : Side → TopicOption
  | .option1 => t.option1
  | .option2 => t.option2

/-- `Player` record from the server: `ipHash` is optional (bots have none),
`isBot` marks synthetic players. -/
structure Player where
  id : String
  username : String
  socketId : String
  ipHash : Option String := none
  isBot : Bool := false
deriving DecidableEq, Repr, Inhabited

/-- `Spectator` record from the server. -/
structure Spectator where
  id : String
  username : String
  socketId : String
  joinedAt : Nat
deriving DecidableEq, Repr

/-- `EmojiReaction` record from the server. -/
structure EmojiReaction where
  spectatorId : String
  username : String
  emoji : String
  timestamp : Nat
deriving DecidableEq, Repr

/-- `BattleMessage` record from the server (a transcript Line). -/
structure BattleMessage where
  playerId : String
  username : String
  message : String
  timestamp : Nat
  round : Nat
deriving DecidableEq, Repr

/-- Battle status: `'waiting' | 'active' | 'ended'`.  The server type
includes `waiting` but never constructs it. -/
inductive Status
  | waiting
  | active
  | ended
deriving DecidableEq, Repr

/-- Per-player judged scores (`wit/humor/originality/total`). -/
structure PlayerScore where
  wit : Int
  humor : Int
  originality : Int
  total : Int
deriving DecidableEq, Repr

/-- The result payload stored on a battle and broadcast in `battleEnded`. -/
structure BattleResult where
  winnerId : String
  winnerUsername : String
  scoresPlayer1 : PlayerScore
  scoresPlayer2 : PlayerScore
  reasoning : String
  reason : String
deriving DecidableEq, Repr

/-- The in-memory `Battle` record.  Timer handles are abstract `Nat` tokens;
`none` models a cleared/absent `NodeJS.Timeout`. -/
structure Battle where
  id : String
  players : List Player
  topic : Topic
  playerSides : List (String × Side)
  currentRound : Nat
  maxRounds : Nat
  roundStartTime : Nat
  status : Status
  messages : List BattleMessage
  spectators : List Spectator
  reactions : List EmojiReaction
  result : Option BattleResult := none
  timerId : Option Nat := none
  isBotBattle : Bool := false
  botPlayerId : Option String := none
  botTimerId : Option Nat := none
deriving DecidableEq, Repr

/-- Process-wide mutable server state: the battle directory, the
matchmaking queue with its membership set, the bot-fallback timer table,
and the `mongoUri`-configured flag controlling persistence. -/
structure ServerState where
  battles : List (String × Battle)
  waitingPlayers : List Player
  waitingSet : List String
  botTimeouts : List (String × Nat)
  mongoEnabled : Bool := true
deriving DecidableEq, Repr

/-! ### JS `Map` operations over association lists -/

/-- `Map.get`. -/
def mapGet (l : List (String × Battle)) (k : String) : Option Battle :=
  (l.find? (fun e => e.1 = k)).map (fun e => e.2)

/-- `Map.set`: replace in place when the key is present (JS `Map` keeps
insertion order), append otherwise. -/
def mapSet (l : List (String × Battle)) (k : String) (v : Battle) :
    List (String × Battle) :=
  if l.any (fun e => e.1 = k) then
    l.map (fun e => if e.1 = k then (k, v) else e)
  else l ++ [(k, v)]

/-- `Map.delete`. -/
def mapDelete (l : List (String × Battle)) (k : String) : List (String × Battle) :=
  l.filter (fun e => e.1 ≠ k)

/-- JS `Set.delete` on the list model of a set of strings. -/
def setDelete (l : List String) (x : String) : List String :=
  l.filter (fun y => y ≠ x)

/-- `botTimeouts.delete(socketId)` (also models `clearTimeout`). -/
def timersDelete (l : List (String × Nat)) (x : String) : List (String × Nat) :=
  l.filter (fun e => e.1 ≠ x)

/-! ### Observable effects -/

/-- Socket emissions observable by clients. -/
inductive Event
  | searchingMatch (socketId : String)
  | battleState (socketId : String) (battleId : String)
  | battleStarted (battleId : String)
  | newMessage (battleId : String) (m : BattleMessage)
  | roundChanged (battleId : String) (round : Nat)
  | battleEnded (battleId : String) (result : Option BattleResult)
  | newReaction (battleId : String) (r : EmojiReaction)
  | reactionRemoved (battleId : String) (timestamp : Nat)
  | spectatorCountUpdated (battleId : String) (count : Nat)
  | battleNotFound (socketId : String) (battleId : String)
  | spectatorLimitReached (socketId : String) (battleId : String)
  | alreadyInBattle (socketId : String) (battleId : String)
deriving DecidableEq, Repr

/-- Best-effort MongoDB writes. -/
inductive Persist
  | battleSnapshot (battleId : String)
  | messagePush (battleId : String)
  | profileWrite (ipHash : String)
deriving DecidableEq, Repr

/-- Calls to the external content/judging oracle. -/
inductive OracleCall
  | judgeCall (battleId : String)
  | replyCall (battleId : String)
deriving DecidableEq, Repr

/-- Collected side effects of one task: emitted events, persistence
writes, oracle calls, and battle ids whose directory removal is
scheduled for 60 s later. -/
structure Effects where
  events : List Event := []
  writes : List Persist := []
  oracle : List OracleCall := []
  cleanups : List String := []
deriving DecidableEq, Repr

/-- Empty effect bundle. -/
def Effects.none : Effects := {}

/-- Concatenation of effect bundles, in execution order. -/
def Effects.append (a b : Effects) : Effects :=
  { events := a.events ++ b.events
    writes := a.writes ++ b.writes
    oracle := a.oracle ++ b.oracle
    cleanups := a.cleanups ++ b.cleanups }

/-- Applying a scheduled cleanup: `battles.delete(battleId)` 60 s after
the session ended. -/
def applyCleanup (s : ServerState) (battleId : String) : ServerState :=
  { s with battles := mapDelete s.battles battleId }

/-! ### The judging service (`openaiService.ts`) -/

/-- JS `x || d` on numbers: `0` (and missing, folded into `0`) falls back. -/
def orZero (x d : Int) : Int := if x = 0 then d else x

/-- JS `x || d` on strings: the empty string falls back. -/
def orEmpty (x d : String) : String := if x = "" then d else x

/-- Raw per-player scores parsed from the judging oracle's JSON. -/
structure RawScores where
  wit : Int
  humor : Int
  originality : Int
  total : Int
deriving DecidableEq, Repr

/-- The parsed oracle judgment (`JSON.parse` result) used by `judgeBattle`. -/
structure RawJudgment where
  player1 : RawScores
  player2 : RawScores
  reasoning : String
deriving DecidableEq, Repr

/-- What `judgeBattle` returns to the server. -/
structure JudgmentResult where
  winnerPlayerId : String
  winnerUsername : String
  winnerScore : Int
  scores1 : PlayerScore
  scores2 : PlayerScore
  reasoning : String
deriving DecidableEq, Repr

/-- Difficulty fairness bonus from `judgeBattle`:
`difficulty > 6 ? 2 : difficulty > 4 ? 1 : 0`. -/
def bonus (difficulty : Int) : Int :=
  if difficulty > 6 then 2 else if difficulty > 4 then 1 else 0

/-- The success path of `OpenAIService.judgeBattle`: apply the fairness
bonus to both totals, recompute the winner with a strict `>` on player 1's
post-bonus total, and assemble the result (`|| 7` / `|| 21` falsy
defaults on the reported scores). -/
def judgeBattleSuccess (topicData : Topic) (player1Username player2Username : String)
    (player1Side player2Side : Side) (judgment : RawJudgment) : JudgmentResult :=
  let safePlayer1Name := orEmpty player1Username "Player 1"
  let safePlayer2Name := orEmpty player2Username "Player 2"
  let player1Bonus := bonus (topicData.side player1Side).difficulty
  let player2Bonus := bonus (topicData.side player2Side).difficulty
  let total1 := judgment.player1.total + player1Bonus
  let total2 := judgment.player2.total + player2Bonus
  let winnerUsername := if total1 > total2 then safePlayer1Name else safePlayer2Name
  let winnerScore := if total1 > total2 then total1 else total2
  { winnerPlayerId := if winnerUsername = safePlayer1Name then "player1" else "player2"
    winnerUsername := winnerUsername
    winnerScore := winnerScore
    scores1 :=
      { wit := orZero judgment.player1.wit 7
        humor := orZero judgment.player1.humor 7
        originality := orZero judgment.player1.originality 7
        total := orZero total1 21 }
    scores2 :=
      { wit := orZero judgment.player2.wit 7
        humor := orZero judgment.player2.humor 7
        originality := orZero judgment.player2.originality 7
        total := orZero total2 21 }
    reasoning := orEmpty judgment.reasoning
      (winnerUsername ++ " delivered better roasts with superior wit and timing!") }

/-- The random draws consumed by `getFallbackJudgment`:
`winnerIsP1` is `Math.random() < 0.5`, the six score draws are
`Math.floor(Math.random() * 4)` (so `0..3` at runtime). -/
structure FallbackDraws where
  winnerIsP1 : Bool
  w1 : Nat
  h1 : Nat
  o1 : Nat
  w2 : Nat
  h2 : Nat
  o2 : Nat
deriving DecidableEq, Repr

/-- `OpenAIService.getFallbackJudgment`: a uniformly random winner,
random 7-10 component scores, and a total adjustment guaranteeing the
chosen winner's total is strictly higher. -/
def getFallbackJudgment (player1Username player2Username : String)
    (fb : FallbackDraws) : JudgmentResult :=
  let safePlayer1Name := orEmpty player1Username "Player 1"
  let safePlayer2Name := orEmpty player2Username "Player 2"
  let s1 : PlayerScore :=
    { wit := (fb.w1 : Int) + 7, humor := (fb.h1 : Int) + 7
      originality := (fb.o1 : Int) + 7
      total := ((fb.w1 : Int) + 7) + ((fb.h1 : Int) + 7) + ((fb.o1 : Int) + 7) }
  let s2 : PlayerScore :=
    { wit := (fb.w2 : Int) + 7, humor := (fb.h2 : Int) + 7
      originality := (fb.o2 : Int) + 7
      total := ((fb.w2 : Int) + 7) + ((fb.h2 : Int) + 7) + ((fb.o2 : Int) + 7) }
  let s1 := if fb.winnerIsP1 ∧ s1.total ≤ s2.total
    then { s1 with total := s2.total + 1 } else s1
  let s2 := if ¬ fb.winnerIsP1 ∧ s2.total ≤ s1.total
    then { s2 with total := s1.total + 1 } else s2
  let winnerUsername := if fb.winnerIsP1 then safePlayer1Name else safePlayer2Name
  let winnerScore := if fb.winnerIsP1 then s1.total else s2.total
  { winnerPlayerId := if fb.winnerIsP1 then "player1" else "player2"
    winnerUsername := winnerUsername
    winnerScore := winnerScore
    scores1 := s1
    scores2 := s2
    reasoning := "Both players brought great energy! " ++ winnerUsername ++
      " edged out with slightly better wit and timing in their roasts." }

/-- `OpenAIService.judgeBattle` in full: the whole body is wrapped in
`try/catch`, so an oracle error or malformed response (`oracleResp = none`)
is masked by `getFallbackJudgment` and the promise never rejects. -/
def judgeBattle (topicData : Topic) (player1Username player2Username : String)
    (player1Side player2Side : Side) (oracleResp : Option RawJudgment)
    (fb : FallbackDraws) : JudgmentResult :=
  match oracleResp with
  | some judgment =>
      judgeBattleSuccess topicData player1Username player2Username
        player1Side player2Side judgment
  | none => getFallbackJudgment player1Username player2Username fb

/-! ### Server orchestration (`server.ts`) -/

/-- The fixed bot persona pool (`BOT_NAMES`). -/
def BOT_NAMES : List String :=
  ["RoboRival", "ByteBrawler", "SnarkCircuit", "QuipQuasar", "NeuroNinja",
   "WitWidget", "PunProcessor", "JestEngine", "SavageScript", "LaughLoop"]

/-- `makeBotPlayer`: `now` is `Date.now()`, `idRand` the random id suffix,
`nameIdx` the draw `Math.floor(Math.random() * BOT_NAMES.length)` (so
`0..9` at runtime). -/
def makeBotPlayer (now idRand nameIdx : Nat) : Player :=
  let botId := "bot_" ++ toString now ++ "_" ++ toString idRand
  { id := botId
    username := BOT_NAMES.getD nameIdx "RoboRival"
    socketId := botId
    ipHash := Option.none
    isBot := true }

/-- 10/10/10 scores awarded to an early-end winner. -/
def maxEarlyScore : PlayerScore := { wit := 10, humor := 10, originality := 10, total := 30 }

/-- 0/0/0 scores given to an early-end loser. -/
def zeroEarlyScore : PlayerScore := { wit := 0, humor := 0, originality := 0, total := 0 }

/-- The body of `endBattleEarly` once past the `!battle || ended` guard:
clear the round timer, set status `ended`, synthesize the maximal-score
result for the winner, broadcast `battleEnded`, persist the snapshot, and
schedule directory removal after 60 s.  `winnerIndex` is JS `findIndex`
(`-1` when absent).  The `loserPlayer` argument of the source function is
unused by its body. -/
def endBattleEarlyCore (battleId : String) (b : Battle) (reason : String)
    (winnerPlayer : Player) (mongo : Bool) : Battle × Effects :=
  let b := { b with timerId := Option.none, status := .ended }
  let winnerIndex : Int :=
    match b.players.findIdx? (fun p => p.id == winnerPlayer.id) with
    | some n => (n : Int)
    | none => -1
  let winnerResult : BattleResult :=
    { winnerId := winnerPlayer.id
      winnerUsername := winnerPlayer.username
      scoresPlayer1 := if winnerIndex = 0 then maxEarlyScore else zeroEarlyScore
      scoresPlayer2 := if winnerIndex = 1 then maxEarlyScore else zeroEarlyScore
      reasoning := reason
      reason := "Battle ended early" }
  ({ b with result := some winnerResult },
   { events := [.battleEnded battleId (some winnerResult)]
     writes := if mongo then [.battleSnapshot battleId] else []
     cleanups := [battleId] })

/-- `endBattleEarly(battleId, reason, winnerPlayer, loserPlayer)`:
no-op when the battle is missing or already `ended`. -/
def endBattleEarly (s : ServerState) (battleId reason : String)
    (winnerPlayer _loserPlayer : Player) : ServerState × Effects :=
  match mapGet s.battles battleId with
  | none => (s, {})
  | some b =>
    if b.status = .ended then (s, {})
    else
      let r := endBattleEarlyCore battleId b reason winnerPlayer s.mongoEnabled
      ({ s with battles := mapSet s.battles battleId r.1 }, r.2)

/-- The closure captured by the bot-reply `setTimeout`: the battle id plus
the `bot` and `human` player records found at scheduling time. -/
structure BotCtx where
  battleId : String
  bot : Player
  human : Player
deriving DecidableEq, Repr

/-- `scheduleBotMessage`, up to arming the timer: guard on existence /
`active` / `isBotBattle`, clear any previous bot timer, locate `bot` and
`human`, and arm a fresh timer whose callback closes over them.  Returns
the armed callback's closure, `none` when nothing was scheduled.  (The
randomized delay is timing-only and not represented.) -/
def scheduleBotMessage (s : ServerState) (battleId : String) (token : Nat) :
    ServerState × Option BotCtx :=
  match mapGet s.battles battleId with
  | none => (s, Option.none)
  | some b =>
    if b.status ≠ Status.active ∨ b.isBotBattle = false then (s, Option.none)
    else
      let cleared := { b with botTimerId := Option.none }
      match b.players.find? (fun p => b.botPlayerId == some p.id),
            b.players.find? (fun p => b.botPlayerId != some p.id) with
      | some bot, some human =>
          let armed := { cleared with botTimerId := some token }
          ({ s with battles := mapSet s.battles battleId armed },
           some { battleId := battleId, bot := bot, human := human })
      | _, _ =>
          ({ s with battles := mapSet s.battles battleId cleared }, Option.none)

/-- The bot-reply timer callback up to the `await generateBotRoast(...)`
suspension: re-fetch the battle, check it is still `active`, and check the
bot has not already spoken this round.  `true` means the oracle call is
issued (and the continuation `botReplyResume` will run on its reply). -/
def botReplyGuard (s : ServerState) (ctx : BotCtx) : Bool :=
  match mapGet s.battles ctx.battleId with
  | none => false
  | some current =>
    if current.status ≠ Status.active then false
    else
      !(current.messages.any (fun m =>
        m.username == ctx.bot.username && m.round == current.currentRound))

/-- The bot-reply continuation after the `await generateBotRoast(...)`
suspension resolves with `text`: push the bot's Line, broadcast
`newMessage`, persist it.  The source performs **no** status
re-validation here; the mutation targets the battle object captured
before the await, which is the directory entry whenever the id is still
present (the `none` branch models the object already evicted from the
directory: the in-memory mutation is unobservable but the broadcast and
write still occur). -/
def botReplyResume (s : ServerState) (ctx : BotCtx) (text : String) (now : Nat) :
    ServerState × Effects :=
  match mapGet s.battles ctx.battleId with
  | some current =>
      let battleMessage : BattleMessage :=
        { playerId := ctx.bot.id, username := ctx.bot.username
          message := text, timestamp := now, round := current.currentRound }
      let current := { current with messages := current.messages ++ [battleMessage] }
      ({ s with battles := mapSet s.battles ctx.battleId current },
       { events := [.newMessage ctx.battleId battleMessage]
         writes := if s.mongoEnabled then [.messagePush ctx.battleId] else [] })
  | none =>
      (s, { events := [.newMessage ctx.battleId
              { playerId := ctx.bot.id, username := ctx.bot.username
                message := text, timestamp := now, round := 0 }]
            writes := if s.mongoEnabled then [.messagePush ctx.battleId] else [] })

/-- Data the `endBattle` continuation closes over across the
`await judgeBattle(...)` suspension: battle id, the two players, and the
topic label (used for profile entries). -/
structure JudgeCtx where
  battleId : String
  players : List Player
  topicTopic : String
deriving DecidableEq, Repr

/-- The synchronous prefix of `endBattle(battleId)`, i.e. everything
before the `await judgeBattle(...)` suspension: fetch (no `ended` guard
here), clear both timers, set status `ended`; if fewer than two players
are recorded, delete the battle and stop; otherwise issue the judge
oracle call and suspend with the closure for `endBattleResume`. -/
def endBattleSync (s : ServerState) (battleId : String) :
    ServerState × Effects × Option JudgeCtx :=
  match mapGet s.battles battleId with
  | none => (s, {}, Option.none)
  | some b =>
    let b := { b with timerId := Option.none, botTimerId := Option.none, status := .ended }
    if b.players.length < 2 then
      ({ s with battles := mapDelete s.battles battleId }, {}, Option.none)
    else
      ({ s with battles := mapSet s.battles battleId b },
       { oracle := [.judgeCall battleId] },
       some { battleId := battleId, players := b.players, topicTopic := b.topic.topic })

/-- Profile upsert for a player, keyed by ip hash when present and
non-empty (`if (player.ipHash)`). -/
def profileWrites (p : Player) : List Persist :=
  match p.ipHash with
  | some h => if h ≠ "" then [Persist.profileWrite h] else []
  | none => []

/-- The continuation of `endBattle` after `await judgeBattle(...)`:
`judgment?` is `some j` when the promise resolved with `j` (the success
branch) and `none` when it rejected (the `catch` branch, which consumes
the random draw `randomWinnerIndex`, `0` or `1` at runtime).  Both
branches store the result on the battle object captured before the await
(observable whenever the id is still in the directory), broadcast
`battleEnded`, persist the snapshot and both profiles, and schedule
directory removal after 60 s. -/
def endBattleResume (s : ServerState) (ctx : JudgeCtx)
    (judgment? : Option JudgmentResult) (randomWinnerIndex : Nat) :
    ServerState × Effects :=
  let p1 := ctx.players.getD 0 default
  let p2 := ctx.players.getD 1 default
  match judgment? with
  | some judgment =>
      let winnerPlayerId := if judgment.winnerPlayerId = "player1" then p1.id else p2.id
      let winnerUsername :=
        if judgment.winnerPlayerId = "player1" then p1.username else p2.username
      let resultPayload : BattleResult :=
        { winnerId := winnerPlayerId
          winnerUsername := winnerUsername
          scoresPlayer1 := judgment.scores1
          scoresPlayer2 := judgment.scores2
          reasoning := orEmpty judgment.reasoning
            "AI has judged the battle based on wit, humor, and originality."
          reason := "Battle completed" }
      let s' :=
        match mapGet s.battles ctx.battleId with
        | some b =>
            let b := { b with result := some resultPayload }
            { s with battles := mapSet s.battles ctx.battleId b }
        | none => s
      let winner := if winnerPlayerId = p1.id then p1 else p2
      let loser := if winnerPlayerId = p1.id then p2 else p1
      (s',
       { events := [.battleEnded ctx.battleId (some resultPayload)]
         writes := if s.mongoEnabled then
             [Persist.battleSnapshot ctx.battleId] ++ profileWrites winner ++ profileWrites loser
           else []
         cleanups := [ctx.battleId] })
  | none =>
      let winner := ctx.players.getD randomWinnerIndex default
      let _loser := ctx.players.getD (1 - randomWinnerIndex) default
      let winScore : PlayerScore := { wit := 8, humor := 8, originality := 7, total := 23 }
      let loseScore : PlayerScore := { wit := 6, humor := 7, originality := 6, total := 19 }
      let resultPayload : BattleResult :=
        { winnerId := winner.id
          winnerUsername := winner.username
          scoresPlayer1 := if randomWinnerIndex = 0 then winScore else loseScore
          scoresPlayer2 := if randomWinnerIndex = 1 then winScore else loseScore
          reasoning := "Both fighters brought great energy! " ++ winner.username ++
            " edged out with slightly better timing and wordplay."
          reason := "Battle completed" }
      let s' :=
        match mapGet s.battles ctx.battleId with
        | some b =>
            let b := { b with result := some resultPayload }
            { s with battles := mapSet s.battles ctx.battleId b }
        | none => s
      let winnerIsP1 := winner.id = p1.id
      let winnerPlayer := if winnerIsP1 then p1 else p2
      let loserPlayer := if winnerIsP1 then p2 else p1
      (s',
       { events := [.battleEnded ctx.battleId (some resultPayload)]
         writes := if s.mongoEnabled then
             [Persist.battleSnapshot ctx.battleId] ++
               profileWrites winnerPlayer ++ profileWrites loserPlayer
           else []
         cleanups := [ctx.battleId] })

/-- `nextRound(battleId)`, the round-timer callback: no-op when the
battle is missing or `ended`; below max rounds it advances the round,
re-arms the round timer and (for bot battles) reschedules the bot reply;
at max rounds it runs the synchronous prefix of `endBattle`. -/
def nextRound (s : ServerState) (battleId : String) (now timerToken botToken : Nat) :
    ServerState × Effects × Option JudgeCtx :=
  match mapGet s.battles battleId with
  | none => (s, {}, Option.none)
  | some b =>
    if b.status = .ended then (s, {}, Option.none)
    else
      let b := { b with timerId := Option.none }
      if b.currentRound < b.maxRounds then
        let b := { b with currentRound := b.currentRound + 1
                          roundStartTime := now
                          timerId := some timerToken }
        let s := { s with battles := mapSet s.battles battleId b }
        let s := if b.isBotBattle then (scheduleBotMessage s battleId botToken).1 else s
        (s, { events := [.roundChanged battleId b.currentRound] }, Option.none)
      else
        let s := { s with battles := mapSet s.battles battleId b }
        endBattleSync s battleId

/-- The `sendMessage` socket handler: guard on existence and `active`,
append the Line tagged with the current round, broadcast and persist it,
and for bot battles where the sender is not the bot, reschedule a faster
bot reply (returning that timer's closure). -/
def sendMessage (s : ServerState) (senderSocketId battleId text username : String)
    (now botToken : Nat) : ServerState × Effects × Option BotCtx :=
  match mapGet s.battles battleId with
  | none => (s, {}, Option.none)
  | some battle =>
    if battle.status ≠ Status.active then (s, {}, Option.none)
    else
      let battleMessage : BattleMessage :=
        { playerId := senderSocketId, username := username, message := text
          timestamp := now, round := battle.currentRound }
      let updated := { battle with messages := battle.messages ++ [battleMessage] }
      let s := { s with battles := mapSet s.battles battleId updated }
      let eff : Effects :=
        { events := [.newMessage battleId battleMessage]
          writes := if s.mongoEnabled then [.messagePush battleId] else [] }
      if battle.isBotBattle then
        match battle.players.find? (fun p => battle.botPlayerId == some p.id) with
        | some bot =>
            if battleMessage.username ≠ bot.username then
              let r := scheduleBotMessage s battleId botToken
              (r.1, eff, r.2)
            else (s, eff, Option.none)
        | none => (s, eff, Option.none)
      else (s, eff, Option.none)

/-- The emoji allow-list of the `sendReaction` handler. -/
def allowedEmojis : List String :=
  ["😂", "🔥", "💯", "👏", "😱", "🤯", "💀", "🎯", "⚡", "🙌"]

/-- The `sendReaction` handler: silent rejection unless the battle is
active, the sender is a registered spectator, and the emoji is on the
allow-list; then append the reaction, self-trim the feed to the last 50
entries, and broadcast `newReaction`.  (The paired 3 s expiry timeout is
`reactionExpire`.) -/
def sendReaction (s : ServerState) (senderSocketId battleId emoji : String)
    (now : Nat) : ServerState × Effects :=
  match mapGet s.battles battleId with
  | none => (s, {})
  | some battle =>
    if battle.status ≠ Status.active then (s, {})
    else
      match battle.spectators.find? (fun sp => sp.socketId == senderSocketId) with
      | none => (s, {})
      | some spectator =>
        if ¬ allowedEmojis.contains emoji then (s, {})
        else
          let reaction : EmojiReaction :=
            { spectatorId := senderSocketId, username := spectator.username
              emoji := emoji, timestamp := now }
          let reactions := battle.reactions ++ [reaction]
          let reactions :=
            if reactions.length > 50 then reactions.drop (reactions.length - 50)
            else reactions
          let updated := { battle with reactions := reactions }
          ({ s with battles := mapSet s.battles battleId updated },
           { events := [.newReaction battleId reaction] })

/-- The 3 s reaction-expiry timeout: filter out of the feed **every**
reaction whose timestamp equals the expiring reaction's timestamp, and
broadcast `reactionRemoved`.  The callback closes over the battle object
and does not re-check status; when the id has left the directory the
mutation is unobservable but the broadcast still occurs. -/
def reactionExpire (s : ServerState) (battleId : String) (timestamp : Nat) :
    ServerState × Effects :=
  match mapGet s.battles battleId with
  | some battle =>
      let updated := { battle with
        reactions := battle.reactions.filter (fun r => r.timestamp ≠ timestamp) }
      ({ s with battles := mapSet s.battles battleId updated },
       { events := [.reactionRemoved battleId timestamp] })
  | none => (s, { events := [.reactionRemoved battleId timestamp] })

/-- The `joinSpectator` handler for the in-memory directory.  (For a
missing id the source additionally consults the durable store for an
ended battle's snapshot; that external read-only path is not part of the
live state and is modelled as the `battleNotFound` signal.) -/
def joinSpectator (s : ServerState) (sockId battleId username : String) (now : Nat) :
    ServerState × Effects :=
  match mapGet s.battles battleId with
  | none => (s, { events := [.battleNotFound sockId battleId] })
  | some battle =>
    if battle.status = .ended then
      (s, { events := [Event.battleState sockId battleId] ++
              (match battle.result with
               | some r => [Event.battleEnded battleId (some r)]
               | none => []) })
    else if battle.spectators.length ≥ 20 then
      (s, { events := [.spectatorLimitReached sockId battleId] })
    else if battle.spectators.any (fun sp => sp.socketId == sockId) ∨
        battle.players.any (fun p => p.socketId == sockId) then
      (s, { events := [.alreadyInBattle sockId battleId] })
    else
      let spectator : Spectator :=
        { id := sockId
          username := orEmpty username ("Spectator" ++ toString now)
          socketId := sockId
          joinedAt := now }
      let updated := { battle with spectators := battle.spectators ++ [spectator] }
      ({ s with battles := mapSet s.battles battleId updated },
       { events := [.battleState sockId battleId,
                    .spectatorCountUpdated battleId updated.spectators.length] })

/-- The `leaveBattle` handler: a player leaving an active battle forfeits
it via `endBattleEarly`; otherwise the leaver is filtered out of the
spectator set. -/
def leaveBattle (s : ServerState) (sockId battleId : String) : ServerState × Effects :=
  match mapGet s.battles battleId with
  | none => (s, {})
  | some battle =>
    let playerIndex := battle.players.findIdx? (fun p => p.socketId == sockId)
    if playerIndex.isSome ∧ battle.status = .active then
      match battle.players.find? (fun p => p.socketId != sockId) with
      | some remainingPlayer =>
          let leavingPlayer := battle.players.getD (playerIndex.getD 0) default
          endBattleEarly s battleId
            (leavingPlayer.username ++ " forfeited the battle. Victory goes to " ++
              remainingPlayer.username ++ "!")
            remainingPlayer leavingPlayer
      | none => (s, {})
    else
      let updated := { battle with
        spectators := battle.spectators.filter (fun sp => sp.socketId ≠ sockId) }
      ({ s with battles := mapSet s.battles battleId updated }, {})

/-- The per-battle body of the `disconnect` handler's `battles.forEach`:
a disconnected player with an opponent in an `active` battle triggers the
`endBattleEarly` forfeit; otherwise (battle already ended, or no
remaining player) the battle is force-cleaned: status `ended`, timers
cleared, a `battleEnded` cleanup broadcast, and immediate directory
deletion (`none`).  The spectator set is filtered in every branch where
the battle survives. -/
def disconnectBattleStep (sockId : String) (mongo : Bool)
    (battleId : String) (battle : Battle) : Option Battle × Effects :=
  match battle.players.findIdx? (fun p => p.socketId == sockId) with
  | some playerIndex =>
    let remainingPlayer := battle.players.find? (fun p => p.socketId != sockId)
    let disconnectedPlayer := battle.players.getD playerIndex default
    match remainingPlayer with
    | some remaining =>
      if battle.status = .active then
        let r := endBattleEarlyCore battleId battle
          (disconnectedPlayer.username ++ " left the battle early. Victory goes to " ++
            remaining.username ++ " by forfeit!")
          remaining mongo
        (some { r.1 with
            spectators := r.1.spectators.filter (fun sp => sp.socketId ≠ sockId) },
         r.2)
      else
        (Option.none, { events := [.battleEnded battleId Option.none] })
    | none =>
        (Option.none, { events := [.battleEnded battleId Option.none] })
  | none =>
    (some { battle with
        spectators := battle.spectators.filter (fun sp => sp.socketId ≠ sockId) },
     {})

/-- The `disconnect` handler: remove the socket from `waitingPlayers`
(the source leaves `waitingSet` and `botTimeouts` untouched here), then
run `disconnectBattleStep` over every battle in the directory. -/
def disconnectHandler (s : ServerState) (sockId : String) : ServerState × Effects :=
  let waitingPlayers :=
    match s.waitingPlayers.findIdx? (fun p => p.socketId == sockId) with
    | some i => s.waitingPlayers.eraseIdx i
    | none => s.waitingPlayers
  let battles' := s.battles.filterMap (fun e =>
    (disconnectBattleStep sockId s.mongoEnabled e.1 e.2).1.map (fun b => (e.1, b)))
  let eff := (s.battles.map (fun e =>
    (disconnectBattleStep sockId s.mongoEnabled e.1 e.2).2)).foldr Effects.append {}
  ({ s with battles := battles', waitingPlayers := waitingPlayers }, eff)

/-- `tryAssignBotToWaitingPlayer(socketId)`, the queue's 60 s bot-fallback
timer callback: clear and drop the timer entry, check the player is still
queued (set and list) and still connected, then synthesize a bot and
request `createBattle(player, bot)` (returned as a creation request,
since battle creation awaits the topic oracle). -/
def tryAssignBotToWaitingPlayer (live : List String) (s : ServerState) (sockId : String)
    (now idRand nameIdx : Nat) : ServerState × List (Player × Player) :=
  let s := { s with botTimeouts := timersDelete s.botTimeouts sockId }
  if sockId ∉ s.waitingSet then (s, [])
  else
    match s.waitingPlayers.findIdx? (fun p => p.socketId == sockId) with
    | none => ({ s with waitingSet := setDelete s.waitingSet sockId }, [])
    | some index =>
      let player := s.waitingPlayers.getD index default
      let s := { s with waitingPlayers := s.waitingPlayers.eraseIdx index
                        waitingSet := setDelete s.waitingSet sockId }
      if sockId ∉ live then (s, [])
      else (s, [(player, makeBotPlayer now idRand nameIdx)])

/-- The inner scan of the pairing loop: pop candidates until the first
one that is connected and distinct from the head; every rejected
candidate's socket id is deleted from the waiting set.  Returns the found
partner with the untouched remainder, plus the rejected ids. -/
def scanForPartner (live : List String) (p1SocketId : String) :
    List Player → Option (Player × List Player) × List String
  | [] => (Option.none, [])
  | candidate :: rest =>
    if candidate.socketId ∈ live ∧ candidate.socketId ≠ p1SocketId then
      (some (candidate, rest), [])
    else
      let r := scanForPartner live p1SocketId rest
      (r.1, candidate.socketId :: r.2)

theorem scanForPartner_some_length (live : List String) (sid : String) :
    ∀ l : List Player, ∀ p rest dels,
      scanForPartner live sid l = (some (p, rest), dels) → rest.length < l.length := by
  intro l
  induction l with
  | nil =>
    intro p rest dels h
    simp [scanForPartner] at h
  | cons c cs ih =>
    intro p rest dels h
    simp only [scanForPartner] at h
    split at h
    case isTrue hc =>
      obtain ⟨hcp, hcr⟩ : c = p ∧ cs = rest := by
        have hfst := congrArg Prod.fst h
        simpa using hfst
      subst hcr
      simp
    case isFalse hc =>
      have h1 : (scanForPartner live sid cs).1 = some (p, rest) := by
        have hfst := congrArg Prod.fst h
        simpa using hfst
      rcases hs : scanForPartner live sid cs with ⟨f, d⟩
      have hlt : rest.length < cs.length := by
        apply ih p rest d
        have h1f : f = some (p, rest) := by rw [hs] at h1; simpa using h1
        rw [hs, h1f]
      have hcc : cs.length < (c :: cs).length := by simp
      omega

/-- The `while (waitingPlayers.length >= 2)` pairing loop of the
`findMatch` handler: pop the head, discard it if dead; scan for the first
other live entry (discarding dead ones from the set); on success cancel
both bot-fallback timers, remove both from the waiting set, record the
pair as a `createBattle` request and continue; otherwise restore the head
and stop.  Returns the final queue, waiting set, timer table, and the
requested pairs in creation order. -/
def matchLoop (live : List String) (waiting : List Player) (wset : List String)
    (bt : List (String × Nat)) :
    List Player × List String × List (String × Nat) × List (Player × Player) :=
  if 2 ≤ waiting.length then
    match waiting with
    | [] => ([], wset, bt, [])
    | p1 :: rest =>
      if p1.socketId ∈ live then
        match hscan : scanForPartner live p1.socketId rest with
        | (some (p2, rem), deleted) =>
          let wset1 := deleted.foldl setDelete wset
          let bt1 := timersDelete (timersDelete bt p1.socketId) p2.socketId
          let wset2 := setDelete (setDelete wset1 p1.socketId) p2.socketId
          let r := matchLoop live rem wset2 bt1
          (r.1, r.2.1, r.2.2.1, (p1, p2) :: r.2.2.2)
        | (Option.none, deleted) =>
          ([p1], deleted.foldl setDelete wset, bt, [])
      else
        matchLoop live rest (setDelete wset p1.socketId) bt
  else (waiting, wset, bt, [])
termination_by waiting.length
decreasing_by
  · have := scanForPartner_some_length live candidate.socketId rest p2 rem deleted hscan
    simp only [List.length_cons]
    omega
  · simp only [List.length_cons]
    omega

/-- Does a waiting-queue player's ip hash make the reconnection check
`p.ipHash && p.ipHash === existingIpHash` succeed? -/
def playerHashMatches (h : String) (p : Player) : Bool :=
  match p.ipHash with
  | some v => v != "" && v == h
  | none => false

/-- The `findMatch` socket handler.  First the reconnection
short-circuit: when the requester's origin hash matches a player of some
`active` battle, re-bind that player's socket id, emit the battle
snapshot to the requester, and return without queueing.  Otherwise build
the player, reject duplicate enqueue, enqueue, run the pairing loop, and
arm the 60 s bot-fallback timer if still unmatched.  `live` is the set of
connected socket ids; battle creation requests are returned (creation
awaits the topic oracle). -/
def findMatch (live : List String) (s : ServerState) (sockId ipHash username : String)
    (now timerToken : Nat) : ServerState × Effects × List (Player × Player) :=
  let reconnect :=
    if ipHash ≠ "" then
      s.battles.find? (fun e =>
        e.2.status == Status.active && e.2.players.any (playerHashMatches ipHash))
    else Option.none
  match reconnect with
  | some entry =>
    let battle := entry.2
    let rebound :=
      match battle.players.findIdx? (playerHashMatches ipHash) with
      | some playerIndex =>
        match battle.players[playerIndex]? with
        | some p =>
            { battle with players :=
                battle.players.set playerIndex { p with socketId := sockId } }
        | none => battle
      | none => battle
    ({ s with battles := mapSet s.battles entry.1 rebound },
     { events := [.battleState sockId entry.1] }, [])
  | none =>
    let player : Player :=
      { id := sockId
        username := orEmpty username ("Player" ++ toString now)
        socketId := sockId
        ipHash := some ipHash
        isBot := false }
    if player.socketId ∈ s.waitingSet then
      (s, { events := [.searchingMatch sockId] }, [])
    else
      let r := matchLoop live (s.waitingPlayers ++ [player])
        (s.waitingSet ++ [player.socketId]) s.botTimeouts
      let bt :=
        if player.socketId ∈ r.2.1 ∧ ¬ r.2.2.1.any (fun e => e.1 == player.socketId)
        then r.2.2.1 ++ [(player.socketId, timerToken)] else r.2.2.1
      ({ s with waitingPlayers := r.1, waitingSet := r.2.1, botTimeouts := bt },
       { events := [.searchingMatch sockId] }, r.2.2.2)

/-- `createBattle(player1, player2)` after its `await generateRoastTopic()`
suspension resolved with `topic` (that call never rejects: the service
falls back to a curated topic pool internally).  Creates the active
battle with round 1 of 3, stores it, persists the initial snapshot,
broadcasts `battleStarted`, arms the 60 s round timer, and for bot
battles schedules the first bot reply. -/
def createBattle (s : ServerState) (player1 player2 : Player) (topic : Topic)
    (battleId : String) (now timerToken botToken : Nat) :
    ServerState × Effects × Option BotCtx :=
  let battle : Battle :=
    { id := battleId
      players := [player1, player2]
      topic := topic
      playerSides := [(player1.id, Side.option1), (player2.id, Side.option2)]
      currentRound := 1
      maxRounds := 3
      roundStartTime := now
      status := .active
      messages := []
      spectators := []
      reactions := []
      isBotBattle := player1.isBot || player2.isBot
      botPlayerId :=
        if player1.isBot then some player1.id
        else if player2.isBot then some player2.id
        else Option.none
      timerId := some timerToken }
  let s := { s with battles := mapSet s.battles battleId battle }
  let eff : Effects :=
    { events := [.battleStarted battleId]
      writes := if s.mongoEnabled then [.battleSnapshot battleId] else [] }
  if battle.isBotBattle then
    let r := scheduleBotMessage s battleId botToken
    (r.1, eff, r.2)
  else (s, eff, Option.none)

/-! ### Association-list map lemmas -/

theorem mapGet_cons (a : String × Battle) (t : List (String × Battle)) (k : String) :
    mapGet (a :: t) k = if a.1 = k then some a.2 else mapGet t k := by
  by_cases h : a.1 = k
  · simp [mapGet, List.find?_cons_of_pos, h]
  · simp [mapGet, List.find?_cons_of_neg, h]

theorem mapGet_mapReplace_self (l : List (String × Battle)) (k : String) (v : Battle)
    (hany : l.any (fun e => e.1 = k)) :
    mapGet (l.map (fun e => if e.1 = k then (k, v) else e)) k = some v := by
  induction l with
  | nil => simp at hany
  | cons a t ih =>
    by_cases hak : a.1 = k
    · simp only [List.map_cons, if_pos hak]
      rw [mapGet_cons]
      simp
    · simp only [List.map_cons, if_neg hak]
      rw [mapGet_cons]
      simp only [List.any_cons, Bool.or_eq_true] at hany
      have hany2 : t.any (fun e => e.1 = k) := by
        rcases hany with h | h
        · exact absurd (by simpa using h) hak
        · exact h
      simp [hak, ih hany2]

theorem mapGet_mapReplace_ne (l : List (String × Battle)) (k k2 : String) (v : Battle)
    (hne : k2 ≠ k) :
    mapGet (l.map (fun e => if e.1 = k then (k, v) else e)) k2 = mapGet l k2 := by
  induction l with
  | nil => simp [mapGet]
  | cons a t ih =>
    by_cases hak : a.1 = k
    · simp only [List.map_cons, if_pos hak]
      rw [mapGet_cons, mapGet_cons]
      have h1 : ¬ (k = k2) := Ne.symm hne
      have h2 : ¬ (a.1 = k2) := by rw [hak]; exact h1
      simp [h1, h2, ih]
    · simp only [List.map_cons, if_neg hak]
      rw [mapGet_cons, mapGet_cons]
      by_cases h2 : a.1 = k2 <;> simp [h2, ih]

theorem mapGet_append_single_self (l : List (String × Battle)) (k : String) (v : Battle)
    (hnone : ¬ l.any (fun e => e.1 = k)) :
    mapGet (l ++ [(k, v)]) k = some v := by
  induction l with
  | nil => simp [mapGet]
  | cons a t ih =>
    simp only [List.any_cons, Bool.or_eq_true, not_or] at hnone
    rw [List.cons_append, mapGet_cons]
    have hak : ¬ (a.1 = k) := by simpa using hnone.1
    simp [hak, ih (by simpa using hnone.2)]

theorem mapGet_append_single_ne (l : List (String × Battle)) (k k2 : String) (v : Battle)
    (hne : k2 ≠ k) :
    mapGet (l ++ [(k, v)]) k2 = mapGet l k2 := by
  induction l with
  | nil => simp [mapGet, Ne.symm hne]
  | cons a t ih =>
    rw [List.cons_append, mapGet_cons, mapGet_cons]
    by_cases h : a.1 = k2 <;> simp [h, ih]

theorem mapGet_mapSet_self (l : List (String × Battle)) (k : String) (v : Battle) :
    mapGet (mapSet l k v) k = some v := by
  unfold mapSet
  split
  case isTrue h => exact mapGet_mapReplace_self l k v h
  case isFalse h => exact mapGet_append_single_self l k v h

theorem mapGet_mapSet_ne (l : List (String × Battle)) (k k2 : String) (v : Battle)
    (hne : k2 ≠ k) : mapGet (mapSet l k v) k2 = mapGet l k2 := by
  unfold mapSet
  split
  case isTrue h => exact mapGet_mapReplace_ne l k k2 v hne
  case isFalse h => exact mapGet_append_single_ne l k k2 v hne

theorem mapGet_mapDelete_self (l : List (String × Battle)) (k : String) :
    mapGet (mapDelete l k) k = Option.none := by
  induction l with
  | nil => simp [mapDelete, mapGet]
  | cons a t ih =>
    unfold mapDelete at ih ⊢
    simp only [ne_eq, decide_not] at ih ⊢
    rw [List.filter_cons]
    by_cases hak : a.1 = k
    · simpa [hak] using ih
    · simp [hak, mapGet_cons, ih]

theorem mapGet_mapDelete_ne (l : List (String × Battle)) (k k2 : String)
    (hne : k2 ≠ k) : mapGet (mapDelete l k) k2 = mapGet l k2 := by
  induction l with
  | nil => simp [mapDelete, mapGet]
  | cons a t ih =>
    unfold mapDelete at ih ⊢
    simp only [ne_eq, decide_not] at ih ⊢
    rw [List.filter_cons, mapGet_cons]
    by_cases hak : a.1 = k
    · have h2 : ¬ (a.1 = k2) := by rw [hak]; exact Ne.symm hne
      simp [hak, h2, ih, Ne.symm hne]
    · by_cases h2 : a.1 = k2 <;> simp [hak, h2, hne, mapGet_cons, ih]

/-! ### Claim C8 -/

/-- C8: in the judging success path a fairness bonus is added post-hoc to
each player's oracle-reported total — 2 points when the side's difficulty
exceeds 6, 1 point when it exceeds 4 but not 6, 0 otherwise — the
post-bonus total is reported without normalization or clamping (the JS
`|| 21` fallback only replaces an exact 0), the declared winner is
recomputed from the post-bonus totals, and for a concrete oracle output
(total 30 on a difficulty-7 side) the reported total is 32, exceeding the
nominal 30-point ceiling. -/
theorem c8_fairness_bonus_unclamped (topicData : Topic) (p1Name p2Name : String)
    (p1Side p2Side : Side) (judgment : RawJudgment) :
    (6 < (topicData.side p1Side).difficulty →
      judgment.player1.total + bonus (topicData.side p1Side).difficulty =
        judgment.player1.total + 2) ∧
    (4 < (topicData.side p1Side).difficulty → (topicData.side p1Side).difficulty ≤ 6 →
      judgment.player1.total + bonus (topicData.side p1Side).difficulty =
        judgment.player1.total + 1) ∧
    ((topicData.side p1Side).difficulty ≤ 4 →
      judgment.player1.total + bonus (topicData.side p1Side).difficulty =
        judgment.player1.total) ∧
    (judgment.player1.total + bonus (topicData.side p1Side).difficulty ≠ 0 →
      (judgeBattleSuccess topicData p1Name p2Name p1Side p2Side judgment).scores1.total =
        judgment.player1.total + bonus (topicData.side p1Side).difficulty) ∧
    (judgment.player2.total + bonus (topicData.side p2Side).difficulty ≠ 0 →
      (judgeBattleSuccess topicData p1Name p2Name p1Side p2Side judgment).scores2.total =
        judgment.player2.total + bonus (topicData.side p2Side).difficulty) ∧
    ((judgeBattleSuccess topicData p1Name p2Name p1Side p2Side judgment).winnerUsername =
      if judgment.player1.total + bonus (topicData.side p1Side).difficulty >
          judgment.player2.total + bonus (topicData.side p2Side).difficulty
      then orEmpty p1Name "Player 1" else orEmpty p2Name "Player 2") ∧
    ((judgeBattleSuccess ⟨"T", ⟨"A", 7⟩, ⟨"B", 3⟩⟩ "Ann" "Bob" Side.option1 Side.option2
        ⟨⟨10, 10, 10, 30⟩, ⟨9, 9, 9, 27⟩, "ok"⟩).scores1.total = 32) := by
  refine ⟨?_, ?_, ?_, ?_, ?_, ?_, ?_⟩
  · intro h
    simp only [bonus, if_pos h]
  · intro h4 h6
    have h : ¬ ((topicData.side p1Side).difficulty > 6) := by omega
    simp only [bonus, if_neg h, if_pos h4]
  · intro h4
    have h : ¬ ((topicData.side p1Side).difficulty > 6) := by omega
    have h2 : ¬ ((topicData.side p1Side).difficulty > 4) := by omega
    simp only [bonus, if_neg h, if_neg h2, add_zero]
  · intro h
    simp [judgeBattleSuccess, orZero, h]
  · intro h
    simp [judgeBattleSuccess, orZero, h]
  · rfl
  · decide

/-- C8 witness: the theorem applied to the concrete difficulty-7 topic
and a 30-point oracle total. -/
theorem c8_fairness_bonus_unclamped_witness :
    (judgeBattleSuccess ⟨"T", ⟨"A", 7⟩, ⟨"B", 3⟩⟩ "Ann" "Bob" Side.option1 Side.option2
      ⟨⟨10, 10, 10, 30⟩, ⟨9, 9, 9, 27⟩, "ok"⟩).scores1.total =
      (30 : Int) + bonus ((Topic.side ⟨"T", ⟨"A", 7⟩, ⟨"B", 3⟩⟩ Side.option1).difficulty) :=
  (c8_fairness_bonus_unclamped ⟨"T", ⟨"A", 7⟩, ⟨"B", 3⟩⟩ "Ann" "Bob"
    Side.option1 Side.option2 ⟨⟨10, 10, 10, 30⟩, ⟨9, 9, 9, 27⟩, "ok"⟩).2.2.2.1 (by decide)

/-! ### Claim C9 -/

/-- C9 counterexample: a tie in post-bonus totals where both players
carry the same display name resolves to `winner.playerId = "player1"`,
refuting "every tie resolves in favor of player 2". -/
theorem c9_counterexample :
    (judgeBattleSuccess ⟨"T", ⟨"A", 5⟩, ⟨"B", 5⟩⟩ "Alice" "Alice" Side.option1 Side.option2
      ⟨⟨7, 7, 7, 21⟩, ⟨7, 7, 7, 21⟩, "even"⟩).winnerPlayerId = "player1" := by
  decide

/-- C9 (amended): the winner selection uses a strict `>` on player 1's
post-bonus total, so a tie yields player 2's (sanitized) username; the
returned `winner.playerId` is `"player2"` whenever the two sanitized
usernames differ (when they coincide the username-based mapping falls
back to `"player1"`). -/
theorem c9_tie_goes_to_player2 (topicData : Topic) (p1Name p2Name : String)
    (p1Side p2Side : Side) (judgment : RawJudgment)
    (heq : judgment.player1.total + bonus (topicData.side p1Side).difficulty =
           judgment.player2.total + bonus (topicData.side p2Side).difficulty)
    (hname : orEmpty p1Name "Player 1" ≠ orEmpty p2Name "Player 2") :
    (judgeBattleSuccess topicData p1Name p2Name p1Side p2Side judgment).winnerPlayerId =
      "player2" ∧
    (judgeBattleSuccess topicData p1Name p2Name p1Side p2Side judgment).winnerUsername =
      orEmpty p2Name "Player 2" := by
  have hnotgt : ¬ (judgment.player1.total + bonus (topicData.side p1Side).difficulty >
      judgment.player2.total + bonus (topicData.side p2Side).difficulty) := by omega
  constructor
  · simp [judgeBattleSuccess, hnotgt, Ne.symm hname]
  · simp [judgeBattleSuccess, hnotgt]

/-- C9 witness: a concrete tie with distinct usernames maps to player 2. -/
theorem c9_tie_goes_to_player2_witness :
    (judgeBattleSuccess ⟨"T", ⟨"A", 5⟩, ⟨"B", 5⟩⟩ "Ann" "Bob" Side.option1 Side.option2
      ⟨⟨7, 7, 7, 21⟩, ⟨7, 7, 7, 21⟩, "even"⟩).winnerPlayerId = "player2" :=
  (c9_tie_goes_to_player2 ⟨"T", ⟨"A", 5⟩, ⟨"B", 5⟩⟩ "Ann" "Bob" Side.option1 Side.option2
    ⟨⟨7, 7, 7, 21⟩, ⟨7, 7, 7, 21⟩, "even"⟩ (by decide) (by decide)).1

/-! ### Claim C4 -/

theorem string_eq_empty_of_length_zero (a : String) (h : a.length = 0) : a = "" := by
  cases a with
  | mk d =>
    cases d with
    | nil => rfl
    | cons c cs => simp [String.length] at h

theorem append_ne_empty_left (pre x : String) (hpre : pre ≠ "") : pre ++ x ≠ "" := by
  intro h
  apply hpre
  have hlen := congrArg String.length h
  rw [String.length_append] at hlen
  have h0 : ("" : String).length = 0 := rfl
  exact string_eq_empty_of_length_zero pre (by omega)

theorem getFallbackJudgment_winnerPlayerId (n1 n2 : String) (fb : FallbackDraws) :
    (getFallbackJudgment n1 n2 fb).winnerPlayerId =
      (if fb.winnerIsP1 then "player1" else "player2") := rfl

theorem getFallbackJudgment_winner_total_gt_p1 (n1 n2 : String) (fb : FallbackDraws)
    (hw : fb.winnerIsP1 = true) :
    (getFallbackJudgment n1 n2 fb).scores1.total >
      (getFallbackJudgment n1 n2 fb).scores2.total := by
  simp only [getFallbackJudgment, hw]
  split_ifs <;> simp_all

theorem getFallbackJudgment_winner_total_gt_p2 (n1 n2 : String) (fb : FallbackDraws)
    (hw : fb.winnerIsP1 = false) :
    (getFallbackJudgment n1 n2 fb).scores2.total >
      (getFallbackJudgment n1 n2 fb).scores1.total := by
  simp only [getFallbackJudgment, hw]
  split_ifs <;> simp_all

theorem getFallbackJudgment_reasoning_ne_empty (n1 n2 : String) (fb : FallbackDraws) :
    (getFallbackJudgment n1 n2 fb).reasoning ≠ "" :=
  append_ne_empty_left _ _ (append_ne_empty_left _ _ (by decide))

/-- C4: when a session reaches its final round and the judging oracle
fails or returns a malformed response, the round timer firing still ends
the session with a definite Result: `judgeBattle` masks the failure with
`getFallbackJudgment`, whose winner is player 1 exactly on one of the two
equiprobable coin outcomes, whose scores are biased so the winner's total
strictly exceeds the loser's, and whose reasoning string is non-empty. -/
theorem c4_judge_failure_definite_result
    (s : ServerState) (battleId : String) (b : Battle) (p1 p2 : Player)
    (hb : mapGet s.battles battleId = some b)
    (hst : b.status ≠ Status.ended)
    (hpl : b.players = [p1, p2])
    (hfinal : ¬ b.currentRound < b.maxRounds)
    (fb : FallbackDraws) (sideA sideB : Side) (now tk btk ridx : Nat) :
    ∃ ctx,
      (nextRound s battleId now tk btk).2.2 = some ctx ∧
      (nextRound s battleId now tk btk).2.1.oracle = [OracleCall.judgeCall battleId] ∧
      (∃ b2 res,
        mapGet (endBattleResume (nextRound s battleId now tk btk).1 ctx
            (some (judgeBattle b.topic p1.username p2.username sideA sideB
              Option.none fb)) ridx).1.battles battleId = some b2 ∧
        b2.status = Status.ended ∧
        b2.result = some res ∧
        res.winnerId = (if fb.winnerIsP1 then p1.id else p2.id) ∧
        (fb.winnerIsP1 = true → res.scoresPlayer1.total > res.scoresPlayer2.total) ∧
        (fb.winnerIsP1 = false → res.scoresPlayer2.total > res.scoresPlayer1.total) ∧
        res.reasoning ≠ "") := by
  refine ⟨⟨battleId, [p1, p2], b.topic.topic⟩, ?_, ?_, ?_⟩
  · simp only [nextRound, hb]
    simp only [hst]
    rw [if_neg hfinal]
    simp only [endBattleSync, mapGet_mapSet_self]
    simp [hpl]
  · simp only [nextRound, hb]
    simp only [hst]
    rw [if_neg hfinal]
    simp only [endBattleSync, mapGet_mapSet_self]
    simp [hpl]
  · simp only [nextRound, hb]
    simp only [hst]
    rw [if_neg hfinal]
    simp only [endBattleSync, mapGet_mapSet_self]
    simp only [hpl, List.length_cons, List.length_nil]
    norm_num
    simp only [judgeBattle]
    cases hw : fb.winnerIsP1
    case false =>
      simp only [endBattleResume, getFallbackJudgment_winnerPlayerId, hw,
        mapGet_mapSet_self]
      refine ⟨_, rfl, rfl, _, rfl, ?_, ?_, ?_, ?_⟩
      · simp [List.getD]
      · simp
      · intro _
        exact getFallbackJudgment_winner_total_gt_p2 p1.username p2.username fb hw
      · have hne := getFallbackJudgment_reasoning_ne_empty p1.username p2.username fb
        simp [orEmpty, hne]
    case true =>
      simp only [endBattleResume, getFallbackJudgment_winnerPlayerId, hw,
        mapGet_mapSet_self]
      refine ⟨_, rfl, rfl, _, rfl, ?_, ?_, ?_, ?_⟩
      · simp [List.getD]
      · intro _
        exact getFallbackJudgment_winner_total_gt_p1 p1.username p2.username fb hw
      · simp
      · have hne := getFallbackJudgment_reasoning_ne_empty p1.username p2.username fb
        simp [orEmpty, hne]

/-! ### Concrete demonstration data -/

/-- A fixed topic used by concrete demonstrations. -/
def demoTopic : Topic := ⟨"T", ⟨"A", 5⟩, ⟨"B", 5⟩⟩

/-- Concrete human player 1. -/
def demoP1 : Player := { id := "s1", username := "Ann", socketId := "s1", ipHash := some "h1" }

/-- Concrete human player 2. -/
def demoP2 : Player := { id := "s2", username := "Bob", socketId := "s2", ipHash := some "h2" }

/-- A concrete active battle sitting at its final round. -/
def finalRoundBattle : Battle :=
  { id := "b1", players := [demoP1, demoP2], topic := demoTopic
    playerSides := [("s1", Side.option1), ("s2", Side.option2)]
    currentRound := 3, maxRounds := 3, roundStartTime := 0, status := .active
    messages := [], spectators := [], reactions := [], timerId := some 1 }

/-- Server state holding just `finalRoundBattle`. -/
def c4State : ServerState :=
  { battles := [("b1", finalRoundBattle)], waitingPlayers := [], waitingSet := []
    botTimeouts := [], mongoEnabled := false }

/-- Concrete fallback randomness: the coin picks player 1, all score
draws zero. -/
def c4Draws : FallbackDraws := ⟨true, 0, 0, 0, 0, 0, 0⟩

/-- C4 witness: the theorem applied to the concrete final-round battle
with a failing judge oracle. -/
theorem c4_judge_failure_definite_result_witness :
    (mapGet c4State.battles "b1" = some finalRoundBattle ∧
     finalRoundBattle.status ≠ Status.ended ∧
     finalRoundBattle.players = [demoP1, demoP2] ∧
     ¬ finalRoundBattle.currentRound < finalRoundBattle.maxRounds) ∧
    (∃ ctx,
      (nextRound c4State "b1" 7 2 3).2.2 = some ctx ∧
      (nextRound c4State "b1" 7 2 3).2.1.oracle = [OracleCall.judgeCall "b1"] ∧
      (∃ b2 res,
        mapGet (endBattleResume (nextRound c4State "b1" 7 2 3).1 ctx
            (some (judgeBattle finalRoundBattle.topic demoP1.username demoP2.username
              Side.option1 Side.option2 Option.none c4Draws)) 0).1.battles "b1" = some b2 ∧
        b2.status = Status.ended ∧
        b2.result = some res ∧
        res.winnerId = (if c4Draws.winnerIsP1 then demoP1.id else demoP2.id) ∧
        (c4Draws.winnerIsP1 = true → res.scoresPlayer1.total > res.scoresPlayer2.total) ∧
        (c4Draws.winnerIsP1 = false → res.scoresPlayer2.total > res.scoresPlayer1.total) ∧
        res.reasoning ≠ "")) :=
  ⟨⟨rfl, by decide, rfl, by decide⟩,
   c4_judge_failure_definite_result c4State "b1" finalRoundBattle demoP1 demoP2 rfl
     (by decide) rfl (by decide) c4Draws Side.option1 Side.option2 7 2 3 0⟩

/-! ### Claim C10 -/

/-- C10: the 3-second reaction expiry removes from the live feed every
reaction whose timestamp equals the expiring timestamp — not only the
triggering reaction — and keeps exactly the others, broadcasting one
`reactionRemoved`. -/
theorem c10_reaction_expiry_same_timestamp
    (s : ServerState) (battleId : String) (b : Battle) (ts : Nat)
    (hb : mapGet s.battles battleId = some b) :
    ∃ b2, mapGet (reactionExpire s battleId ts).1.battles battleId = some b2 ∧
      b2.reactions = b.reactions.filter (fun r => r.timestamp ≠ ts) ∧
      (∀ r ∈ b.reactions, r.timestamp = ts → r ∉ b2.reactions) ∧
      (∀ r ∈ b.reactions, r.timestamp ≠ ts → r ∈ b2.reactions) ∧
      (reactionExpire s battleId ts).2.events = [Event.reactionRemoved battleId ts] := by
  simp only [reactionExpire, hb, mapGet_mapSet_self]
  refine ⟨_, rfl, rfl, ?_, ?_, trivial⟩
  · intro r hr hts
    simp [List.mem_filter, hts]
  · intro r hr hts
    simp [List.mem_filter, hr, hts]

/-- A battle carrying two distinct reactions created in the same
millisecond, plus one older reaction. -/
def reactBattle : Battle :=
  { id := "b2", players := [demoP1, demoP2], topic := demoTopic
    playerSides := [("s1", Side.option1), ("s2", Side.option2)]
    currentRound := 1, maxRounds := 3, roundStartTime := 0, status := .active
    messages := [], spectators := []
    reactions := [⟨"sp1", "u", "🔥", 5⟩, ⟨"sp2", "v", "😂", 5⟩, ⟨"sp3", "w", "💀", 9⟩] }

/-- Server state holding just `reactBattle`. -/
def c10State : ServerState :=
  { battles := [("b2", reactBattle)], waitingPlayers := [], waitingSet := []
    botTimeouts := [], mongoEnabled := false }

/-- C10 witness: expiring timestamp 5 removes both same-millisecond
reactions and keeps the timestamp-9 one. -/
theorem c10_reaction_expiry_same_timestamp_witness :
    mapGet c10State.battles "b2" = some reactBattle ∧
    (∃ b2, mapGet (reactionExpire c10State "b2" 5).1.battles "b2" = some b2 ∧
      b2.reactions = reactBattle.reactions.filter (fun r => r.timestamp ≠ 5) ∧
      (∀ r ∈ reactBattle.reactions, r.timestamp = 5 → r ∉ b2.reactions) ∧
      (∀ r ∈ reactBattle.reactions, r.timestamp ≠ 5 → r ∈ b2.reactions) ∧
      (reactionExpire c10State "b2" 5).2.events = [Event.reactionRemoved "b2" 5]) :=
  ⟨rfl, c10_reaction_expiry_same_timestamp c10State "b2" reactBattle 5 rfl⟩

/-! ### Claim C2 -/

/-- A result payload already stored on an ended battle. -/
def priorResult : BattleResult :=
  ⟨"s1", "Ann", ⟨10, 10, 10, 30⟩, ⟨0, 0, 0, 0⟩, "left early", "Battle ended early"⟩

/-- A battle that already ended (result stored). -/
def endedBattleC2 : Battle :=
  { id := "b3", players := [demoP1, demoP2], topic := demoTopic
    playerSides := [("s1", Side.option1), ("s2", Side.option2)]
    currentRound := 3, maxRounds := 3, roundStartTime := 0, status := .ended
    messages := [], spectators := [], reactions := [], result := some priorResult }

/-- Server state (persistence configured) holding the ended battle. -/
def c2State : ServerState :=
  { battles := [("b3", endedBattleC2)], waitingPlayers := [], waitingSet := []
    botTimeouts := [], mongoEnabled := true }

/-- C2 counterexample: `endBattle` has no idempotent guard — invoked on a
session already `ended` it is not a no-op: it calls the judge oracle
again, broadcasts a second `battleEnded`, and issues a second snapshot
write. -/
theorem c2_counterexample :
    (endBattleSync c2State "b3").2.1.oracle = [OracleCall.judgeCall "b3"] ∧
    (∃ ctx, (endBattleSync c2State "b3").2.2 = some ctx ∧
      (endBattleResume (endBattleSync c2State "b3").1 ctx
          (some (getFallbackJudgment "Ann" "Bob" c4Draws)) 0).2.events.countP
        (fun e => match e with | Event.battleEnded _ _ => true | _ => false) = 1 ∧
      (endBattleResume (endBattleSync c2State "b3").1 ctx
          (some (getFallbackJudgment "Ann" "Bob" c4Draws)) 0).2.writes ≠ []) := by
  refine ⟨rfl, ⟨⟨"b3", [demoP1, demoP2], "T"⟩, rfl, ?_, ?_⟩⟩
  · decide
  · decide

/-- C2 (amended): `endBattleEarly` is idempotent (a no-op on an already
ended session).  `endBattle` itself carries no such guard, but its only
caller `nextRound` skips ended sessions, so the disconnect-then-timer
race produces exactly one `battleEnded` broadcast and one snapshot
write: the forfeit ends the session and the later round-timer firing is
a complete no-op. -/
theorem c2_end_idempotence_guard (s : ServerState) (battleId reason : String)
    (w l : Player) (b : Battle)
    (hb : mapGet s.battles battleId = some b) :
    (b.status = Status.ended →
      endBattleEarly s battleId reason w l = (s, {})) ∧
    (b.status = Status.active → s.mongoEnabled = true →
      (endBattleEarly s battleId reason w l).2.events.countP
          (fun e => match e with | Event.battleEnded _ _ => true | _ => false) = 1 ∧
      (endBattleEarly s battleId reason w l).2.writes = [Persist.battleSnapshot battleId] ∧
      (∀ now2 tk btk, nextRound (endBattleEarly s battleId reason w l).1 battleId now2 tk btk =
        ((endBattleEarly s battleId reason w l).1, {}, Option.none))) := by
  constructor
  · intro h
    simp [endBattleEarly, hb, h]
  · intro h hm
    have hne : ¬ (b.status = Status.ended) := by rw [h]; decide
    simp only [endBattleEarly, hb, hne, if_neg, endBattleEarlyCore, hm, if_true]
    refine ⟨by simp, by simp [hm], ?_⟩
    intro now2 tk btk
    simp [nextRound, mapGet_mapSet_self]

/-- Server state (persistence configured) holding the concrete active
final-round battle. -/
def c2ActiveState : ServerState :=
  { battles := [("b1", finalRoundBattle)], waitingPlayers := [], waitingSet := []
    botTimeouts := [], mongoEnabled := true }

/-- C2 witness: the amended race property at a concrete active battle
with persistence configured. -/
theorem c2_end_idempotence_guard_witness :
    finalRoundBattle.status = Status.active ∧
    (endBattleEarly c2ActiveState "b1" "left" demoP1 demoP2).2.writes =
      [Persist.battleSnapshot "b1"] ∧
    nextRound (endBattleEarly c2ActiveState "b1" "left" demoP1 demoP2).1 "b1" 9 4 6 =
      ((endBattleEarly c2ActiveState "b1" "left" demoP1 demoP2).1, {}, Option.none) := by
  have h := (c2_end_idempotence_guard c2ActiveState "b1" "left" demoP1 demoP2
    finalRoundBattle rfl).2 rfl rfl
  exact ⟨rfl, h.2.1, h.2.2 9 4 6⟩

/-! ### Claim C3 -/

theorem findIdx?_found {α : Type} [Inhabited α] (l : List α) (p : α → Bool) (i : Nat)
    (h : l.findIdx? p = some i) : i < l.length ∧ p (l.getD i default) = true := by
  obtain ⟨hlt, hidx⟩ := List.findIdx?_eq_some_iff_findIdx_eq.mp h
  refine ⟨hlt, ?_⟩
  have h3 : p (l.get (Fin.mk (l.findIdx p) (by omega))) = true :=
    List.findIdx_getElem (w := by omega)
  rw [List.getD_eq_getElem l default hlt]
  simp only [List.get_eq_getElem, hidx] at h3
  exact h3

/-- C3: a join-queue request whose anonymized-origin token matches a
participant of some active session re-binds that participant's
connection handle to the requester's, emits the session snapshot to the
requester, requests no battle creation, and leaves the waiting queue,
waiting set, and bot-fallback timers untouched. -/
theorem c3_reconnection_short_circuit
    (live : List String) (s : ServerState) (sockId ipHash username : String)
    (now tk : Nat)
    (hhash : ipHash ≠ "")
    (hex : ∃ e ∈ s.battles, e.2.status = Status.active ∧
      ∃ p ∈ e.2.players, p.ipHash = some ipHash) :
    (findMatch live s sockId ipHash username now tk).1.waitingPlayers = s.waitingPlayers ∧
    (findMatch live s sockId ipHash username now tk).1.waitingSet = s.waitingSet ∧
    (findMatch live s sockId ipHash username now tk).1.botTimeouts = s.botTimeouts ∧
    (findMatch live s sockId ipHash username now tk).2.2 = [] ∧
    (∃ battleId b2,
      (findMatch live s sockId ipHash username now tk).2.1.events =
        [Event.battleState sockId battleId] ∧
      mapGet (findMatch live s sockId ipHash username now tk).1.battles battleId = some b2 ∧
      ∃ p2 ∈ b2.players, p2.ipHash = some ipHash ∧ p2.socketId = sockId) := by
  classical
  obtain ⟨e, he, hact, p, hp, hph⟩ := hex
  have hpm : playerHashMatches ipHash p = true := by
    simp [playerHashMatches, hph, hhash]
  have hpred : (fun e : String × Battle =>
      e.2.status == Status.active && e.2.players.any (playerHashMatches ipHash)) e = true := by
    simp only [Bool.and_eq_true, beq_iff_eq]
    exact ⟨hact, List.any_eq_true.mpr ⟨p, hp, hpm⟩⟩
  have hsome : (s.battles.find? (fun e =>
      e.2.status == Status.active && e.2.players.any (playerHashMatches ipHash))).isSome :=
    List.find?_isSome.mpr ⟨e, he, hpred⟩
  rcases hfind : s.battles.find? (fun e =>
      e.2.status == Status.active && e.2.players.any (playerHashMatches ipHash))
    with _ | entry
  · rw [hfind] at hsome
    simp at hsome
  have hentry := List.find?_some hfind
  have hany : entry.2.players.any (playerHashMatches ipHash) = true := by
    simp only [Bool.and_eq_true] at hentry
    exact hentry.2
  rcases hI : entry.2.players.findIdx? (playerHashMatches ipHash) with _ | i
  · rw [List.findIdx?_eq_none_iff] at hI
    obtain ⟨q, hq, hqm⟩ := List.any_eq_true.mp hany
    exact absurd hqm (by simpa using hI q hq)
  obtain ⟨hlt, hgetp⟩ := findIdx?_found _ _ _ hI
  have hq : entry.2.players[i]? = some (entry.2.players.getD i default) := by
    rw [List.getElem?_eq_getElem hlt, List.getD_eq_getElem]
  have hipd : (entry.2.players.getD i default).ipHash = some ipHash := by
    rcases hcase : (entry.2.players.getD i default).ipHash with _ | v
    · rw [playerHashMatches, hcase] at hgetp
      simp at hgetp
    · rw [playerHashMatches, hcase] at hgetp
      simp only [Bool.and_eq_true, beq_iff_eq] at hgetp
      rw [hgetp.2]
  simp only [findMatch, hhash, ne_eq, not_false_eq_true, if_true, hfind, hI, hq]
  refine ⟨trivial, trivial, trivial, trivial, entry.1, _, rfl, mapGet_mapSet_self .., ?_⟩
  refine ⟨{ entry.2.players.getD i default with socketId := sockId }, ?_, ?_, rfl⟩
  · exact List.mem_set entry.2.players i hlt _
  · simpa using hipd

/-- C3 witness: a reconnecting socket whose origin hash matches the
active battle's player 1 resumes the battle and is never queued. -/
theorem c3_reconnection_short_circuit_witness :
    (("h1" : String) ≠ "" ∧
     (∃ e ∈ c4State.battles, e.2.status = Status.active ∧
       ∃ p ∈ e.2.players, p.ipHash = some "h1")) ∧
    ((findMatch [] c4State "sNew" "h1" "Ann" 0 0).1.waitingPlayers = c4State.waitingPlayers ∧
     (findMatch [] c4State "sNew" "h1" "Ann" 0 0).1.waitingSet = c4State.waitingSet ∧
     (findMatch [] c4State "sNew" "h1" "Ann" 0 0).1.botTimeouts = c4State.botTimeouts ∧
     (findMatch [] c4State "sNew" "h1" "Ann" 0 0).2.2 = [] ∧
     (∃ battleId b2,
       (findMatch [] c4State "sNew" "h1" "Ann" 0 0).2.1.events =
         [Event.battleState "sNew" battleId] ∧
       mapGet (findMatch [] c4State "sNew" "h1" "Ann" 0 0).1.battles battleId = some b2 ∧
       ∃ p2 ∈ b2.players, p2.ipHash = some "h1" ∧ p2.socketId = "sNew")) := by
  have hex : ∃ e ∈ c4State.battles, e.2.status = Status.active ∧
      ∃ p ∈ e.2.players, p.ipHash = some "h1" :=
    ⟨("b1", finalRoundBattle), by decide, rfl, demoP1, by decide, rfl⟩
  exact ⟨⟨by decide, hex⟩,
    c3_reconnection_short_circuit [] c4State "sNew" "h1" "Ann" 0 0 (by decide) hex⟩

/-! ### Claim C5 -/

theorem setDelete_subset (l : List String) (x y : String)
    (h : y ∈ setDelete l x) : y ∈ l :=
  List.mem_of_mem_filter h

theorem not_mem_setDelete_self (l : List String) (x : String) :
    x ∉ setDelete l x := by
  intro h
  have := List.of_mem_filter h
  simp at this

theorem foldl_setDelete_subset (deleted : List String) (wset : List String) :
    ∀ x ∈ deleted.foldl setDelete wset, x ∈ wset := by
  induction deleted generalizing wset with
  | nil =>
    intro x hx
    exact hx
  | cons d ds ih =>
    intro x hx
    exact setDelete_subset _ _ _ (ih (setDelete wset d) x hx)

theorem matchLoop_bt_subset (live : List String) (waiting : List Player)
    (wset : List String) (bt : List (String × Nat)) :
    ∀ e ∈ (matchLoop live waiting wset bt).2.2.1, e ∈ bt := by
  induction waiting, wset, bt using matchLoop.induct live with
  | case1 wset bt h =>
    exact absurd h (by simp)
  | case2 wset bt candidate rest hlive p2 rem deleted hscan wset1 bt1 wset2 h ih =>
    intro e he
    unfold matchLoop at he
    rw [if_pos h] at he
    dsimp only at he
    rw [if_pos hlive] at he
    split at he
    case _ p2x remx deletedx heq =>
      rw [hscan] at heq
      simp only [Prod.mk.injEq, Option.some.injEq] at heq
      obtain ⟨⟨hp, hr⟩, hd⟩ := heq
      subst hp
      subst hr
      subst hd
      have hbt1 := ih e he
      exact List.mem_of_mem_filter (List.mem_of_mem_filter hbt1)
    case _ deletedx heq =>
      rw [hscan] at heq
      simp at heq
  | case3 wset bt candidate rest hlive deleted hscan h =>
    intro e he
    unfold matchLoop at he
    rw [if_pos h] at he
    dsimp only at he
    rw [if_pos hlive] at he
    split at he
    case _ p2x remx deletedx heq =>
      rw [hscan] at heq
      simp at heq
    case _ deletedx heq =>
      exact he
  | case4 wset bt candidate rest hlive h ih =>
    intro e he
    unfold matchLoop at he
    rw [if_pos h] at he
    dsimp only at he
    rw [if_neg hlive] at he
    exact ih e he
  | case5 waiting wset bt h =>
    intro e he
    unfold matchLoop at he
    rw [if_neg h] at he
    exact he

theorem matchLoop_wset_subset (live : List String) (waiting : List Player)
    (wset : List String) (bt : List (String × Nat)) :
    ∀ x ∈ (matchLoop live waiting wset bt).2.1, x ∈ wset := by
  induction waiting, wset, bt using matchLoop.induct live with
  | case1 wset bt h =>
    exact absurd h (by simp)
  | case2 wset bt candidate rest hlive p2 rem deleted hscan wset1 bt1 wset2 h ih =>
    intro x hx
    unfold matchLoop at hx
    rw [if_pos h] at hx
    dsimp only at hx
    rw [if_pos hlive] at hx
    split at hx
    case _ p2x remx deletedx heq =>
      rw [hscan] at heq
      simp only [Prod.mk.injEq, Option.some.injEq] at heq
      obtain ⟨⟨hp, hr⟩, hd⟩ := heq
      subst hp
      subst hr
      subst hd
      have hx2 := ih x hx
      exact foldl_setDelete_subset deleted wset x
        (setDelete_subset _ _ _ (setDelete_subset _ _ _ hx2))
    case _ deletedx heq =>
      rw [hscan] at heq
      simp at heq
  | case3 wset bt candidate rest hlive deleted hscan h =>
    intro x hx
    unfold matchLoop at hx
    rw [if_pos h] at hx
    dsimp only at hx
    rw [if_pos hlive] at hx
    split at hx
    case _ p2x remx deletedx heq =>
      rw [hscan] at heq
      simp at heq
    case _ deletedx heq =>
      exact foldl_setDelete_subset deletedx wset x hx
  | case4 wset bt candidate rest hlive h ih =>
    intro x hx
    unfold matchLoop at hx
    rw [if_pos h] at hx
    dsimp only at hx
    rw [if_neg hlive] at hx
    exact setDelete_subset _ _ _ (ih x hx)
  | case5 waiting wset bt h =>
    intro x hx
    unfold matchLoop at hx
    rw [if_neg h] at hx
    exact hx

theorem matchLoop_pair_canceled (live : List String) (waiting : List Player)
    (wset : List String) (bt : List (String × Nat)) :
    ∀ pr ∈ (matchLoop live waiting wset bt).2.2.2,
      (∀ e ∈ (matchLoop live waiting wset bt).2.2.1,
        e.1 ≠ pr.1.socketId ∧ e.1 ≠ pr.2.socketId) ∧
      pr.1.socketId ∉ (matchLoop live waiting wset bt).2.1 ∧
      pr.2.socketId ∉ (matchLoop live waiting wset bt).2.1 := by
  induction waiting, wset, bt using matchLoop.induct live with
  | case1 wset bt h =>
    exact absurd h (by simp)
  | case2 wset bt candidate rest hlive p2 rem deleted hscan wset1 bt1 wset2 h ih =>
    intro pr hpr
    have hunf : matchLoop live (candidate :: rest) wset bt =
        ((matchLoop live rem wset2 bt1).1, (matchLoop live rem wset2 bt1).2.1,
         (matchLoop live rem wset2 bt1).2.2.1,
         (candidate, p2) :: (matchLoop live rem wset2 bt1).2.2.2) := by
      conv_lhs => unfold matchLoop
      rw [if_pos h]
      try dsimp only
      rw [if_pos hlive]
      split
      case _ p2x remx deletedx heq =>
        rw [hscan] at heq
        simp only [Prod.mk.injEq, Option.some.injEq] at heq
        obtain ⟨⟨hp, hr⟩, hd⟩ := heq
        subst hp
        subst hr
        subst hd
        rfl
      case _ deletedx heq =>
        rw [hscan] at heq
        simp at heq
    rw [hunf] at hpr ⊢
    dsimp only at hpr ⊢
    rcases List.mem_cons.mp hpr with hpr1 | hpr2
    · subst hpr1
      refine ⟨?_, ?_, ?_⟩
      · intro e he
        have he1 : e ∈ bt1 := matchLoop_bt_subset live rem wset2 bt1 e he
        have hout : e.1 ≠ p2.socketId := by
          have := List.of_mem_filter he1
          simpa using this
        have hinner : e ∈ timersDelete bt candidate.socketId :=
          List.mem_of_mem_filter he1
        have hin : e.1 ≠ candidate.socketId := by
          have := List.of_mem_filter hinner
          simpa using this
        exact ⟨hin, hout⟩
      · intro hmem
        have h2 : candidate.socketId ∈ wset2 :=
          matchLoop_wset_subset live rem wset2 bt1 _ hmem
        have h3 : candidate.socketId ∈ setDelete wset1 candidate.socketId :=
          setDelete_subset _ _ _ h2
        exact not_mem_setDelete_self _ _ h3
      · intro hmem
        have h2 : p2.socketId ∈ wset2 :=
          matchLoop_wset_subset live rem wset2 bt1 _ hmem
        exact not_mem_setDelete_self _ _ h2
    · exact ih pr hpr2
  | case3 wset bt candidate rest hlive deleted hscan h =>
    intro pr hpr
    unfold matchLoop at hpr
    rw [if_pos h] at hpr
    dsimp only at hpr
    rw [if_pos hlive] at hpr
    split at hpr
    case _ p2x remx deletedx heq =>
      rw [hscan] at heq
      simp at heq
    case _ deletedx heq =>
      simp at hpr
  | case4 wset bt candidate rest hlive h ih =>
    intro pr hpr
    have hunf : matchLoop live (candidate :: rest) wset bt =
        matchLoop live rest (setDelete wset candidate.socketId) bt := by
      conv_lhs => unfold matchLoop
      rw [if_pos h]
      try dsimp only
      rw [if_neg hlive]
    rw [hunf] at hpr ⊢
    exact ih pr hpr
  | case5 waiting wset bt h =>
    intro pr hpr
    unfold matchLoop at hpr
    rw [if_neg h] at hpr
    simp at hpr

/-- A queued player used by the C5 demonstrations. -/
def c5Player : Player := { id := "w1", username := "Wyn", socketId := "w1", ipHash := some "hw" }

/-- Server state with one queued player and an armed bot-fallback timer. -/
def c5WaitState : ServerState :=
  { battles := [], waitingPlayers := [c5Player], waitingSet := ["w1"]
    botTimeouts := [("w1", 5)], mongoEnabled := false }

/-- C5 counterexample: when the queued participant disconnects, the
disconnect handler removes them from the waiting list but does **not**
cancel their bot-fallback timer — it stays armed, refuting "the fallback
timer is canceled if the participant disconnects first". -/
theorem c5_counterexample :
    (disconnectHandler c5WaitState "w1").1.waitingPlayers = [] ∧
    (disconnectHandler c5WaitState "w1").1.botTimeouts = [("w1", 5)] := by
  decide

/-- C5 (amended): when the 60 s fallback timer fires for a participant
still in the waiting queue and still connected, exactly one session
creation with a synthetic opponent named from the fixed persona pool is
requested; the timer entry is dropped whenever the callback runs; firing
after the participant left the waiting list (pairing or disconnect)
creates nothing; and pairing itself cancels both paired players'
fallback timers.  (On disconnect the timer is *not* canceled — it stays
armed and its eventual firing is a no-op; see the counterexample.) -/
theorem c5_bot_fallback (live : List String) (s : ServerState) (sockId : String)
    (now idRand nameIdx : Nat) :
    ((sockId ∈ s.waitingSet) →
      ∀ i, s.waitingPlayers.findIdx? (fun p => p.socketId == sockId) = some i →
      sockId ∈ live → nameIdx < BOT_NAMES.length →
      (tryAssignBotToWaitingPlayer live s sockId now idRand nameIdx).2 =
        [(s.waitingPlayers.getD i default, makeBotPlayer now idRand nameIdx)] ∧
      (makeBotPlayer now idRand nameIdx).isBot = true ∧
      (makeBotPlayer now idRand nameIdx).username ∈ BOT_NAMES) ∧
    (∀ e ∈ (tryAssignBotToWaitingPlayer live s sockId now idRand nameIdx).1.botTimeouts,
      e.1 ≠ sockId) ∧
    ((∀ p ∈ s.waitingPlayers, p.socketId ≠ sockId) →
      (tryAssignBotToWaitingPlayer live s sockId now idRand nameIdx).2 = []) ∧
    (∀ waiting wset bt, ∀ pr ∈ (matchLoop live waiting wset bt).2.2.2,
      ∀ e ∈ (matchLoop live waiting wset bt).2.2.1,
        e.1 ≠ pr.1.socketId ∧ e.1 ≠ pr.2.socketId) := by
  refine ⟨?_, ?_, ?_, ?_⟩
  · intro hws i hI hlive hn
    have hnot : ¬ (sockId ∉ s.waitingSet) := by simpa using hws
    simp only [tryAssignBotToWaitingPlayer, hnot, if_false, hI]
    refine ⟨by simp [hlive], rfl, ?_⟩
    simp only [makeBotPlayer]
    rw [List.getD_eq_getElem BOT_NAMES "RoboRival" hn]
    exact List.getElem_mem hn
  · intro e he
    unfold tryAssignBotToWaitingPlayer at he
    dsimp only at he
    repeat' split at he
    all_goals
      first
      | (have h2 := List.of_mem_filter he
         simpa using h2)
  · intro hnone
    have hI : s.waitingPlayers.findIdx? (fun p => p.socketId == sockId) = Option.none := by
      rcases hI2 : s.waitingPlayers.findIdx? (fun p => p.socketId == sockId) with _ | i
      · exact hI2
      · obtain ⟨hlt, hget⟩ := findIdx?_found _ _ _ hI2
        have hmem : s.waitingPlayers.getD i default ∈ s.waitingPlayers := by
          rw [List.getD_eq_getElem s.waitingPlayers default hlt]
          exact List.getElem_mem hlt
        have := hnone _ hmem
        simp only [beq_iff_eq] at hget
        exact absurd hget this
    simp only [tryAssignBotToWaitingPlayer, hI]
    split <;> rfl
  · intro waiting wset bt pr hpr e he
    exact (matchLoop_pair_canceled live waiting wset bt pr hpr).1 e he

/-- C5 witness: the fallback fires for the concretely queued, connected
player and requests one battle against a pool-named bot. -/
theorem c5_bot_fallback_witness :
    ("w1" ∈ c5WaitState.waitingSet ∧
     c5WaitState.waitingPlayers.findIdx? (fun p => p.socketId == "w1") = some 0 ∧
     "w1" ∈ ["w1"] ∧ 2 < BOT_NAMES.length) ∧
    ((tryAssignBotToWaitingPlayer ["w1"] c5WaitState "w1" 3 4 2).2 =
      [(c5WaitState.waitingPlayers.getD 0 default, makeBotPlayer 3 4 2)] ∧
     (makeBotPlayer 3 4 2).isBot = true ∧
     (makeBotPlayer 3 4 2).username ∈ BOT_NAMES) :=
  ⟨⟨by decide, by decide, by decide, by decide⟩,
   (c5_bot_fallback ["w1"] c5WaitState "w1" 3 4 2).1 (by decide) 0 (by decide)
     (by decide) (by decide)⟩

/-! ### Claim C6 -/

theorem mapGet_filterMap_none (t : List (String × Battle)) (k : String)
    (f : String → Battle → Option Battle)
    (hnk : k ∉ t.map Prod.fst) :
    mapGet (t.filterMap (fun e => (f e.1 e.2).map (fun v => (e.1, v)))) k =
      Option.none := by
  induction t with
  | nil => rfl
  | cons a t ih =>
    simp only [List.map_cons, List.mem_cons, not_or] at hnk
    obtain ⟨hak, ht⟩ := hnk
    rcases hf : f a.1 a.2 with _ | v
    · simp only [List.filterMap_cons, hf, Option.map_none']
      exact ih ht
    · simp only [List.filterMap_cons, hf, Option.map_some']
      rw [mapGet_cons, if_neg (fun h => hak h.symm)]
      exact ih ht

theorem mapGet_filterMap_keyfix (l : List (String × Battle)) (k : String) (b : Battle)
    (f : String → Battle → Option Battle)
    (hnd : (l.map Prod.fst).Nodup)
    (hget : mapGet l k = some b) :
    mapGet (l.filterMap (fun e => (f e.1 e.2).map (fun v => (e.1, v)))) k = f k b := by
  induction l with
  | nil => simp [mapGet] at hget
  | cons a t ih =>
    rw [List.map_cons, List.nodup_cons] at hnd
    obtain ⟨hahd, htnd⟩ := hnd
    rw [mapGet_cons] at hget
    by_cases hak : a.1 = k
    · rw [if_pos hak] at hget
      injection hget with hb
      rcases hf : f a.1 a.2 with _ | v
      · simp only [List.filterMap_cons, hf, Option.map_none']
        rw [mapGet_filterMap_none t k f (hak ▸ hahd)]
        rw [← hak, ← hb, hf]
      · simp only [List.filterMap_cons, hf, Option.map_some']
        rw [mapGet_cons, if_pos hak]
        rw [← hak, ← hb, hf]
    · rw [if_neg hak] at hget
      rcases hf : f a.1 a.2 with _ | v
      · simp only [List.filterMap_cons, hf, Option.map_none']
        exact ih htnd hget
      · simp only [List.filterMap_cons, hf, Option.map_some']
        rw [mapGet_cons, if_neg hak]
        exact ih htnd hget

theorem disconnectHandler_battles_get (s : ServerState) (sockId k : String) (b : Battle)
    (hnd : (s.battles.map Prod.fst).Nodup)
    (hget : mapGet s.battles k = some b) :
    mapGet (disconnectHandler s sockId).1.battles k =
      (disconnectBattleStep sockId s.mongoEnabled k b).1 := by
  unfold disconnectHandler
  dsimp only
  exact mapGet_filterMap_keyfix s.battles k b
    (fun k2 b2 => (disconnectBattleStep sockId s.mongoEnabled k2 b2).1) hnd hget

theorem disconnectBattleStep_oracle (sockId : String) (m : Bool) (bid : String)
    (b : Battle) : (disconnectBattleStep sockId m bid b).2.oracle = [] := by
  unfold disconnectBattleStep
  rcases hpi : b.players.findIdx? (fun p => p.socketId == sockId) with _ | i <;>
    rcases hr : b.players.find? (fun p => p.socketId != sockId) with _ | r <;>
    by_cases hstv : b.status = Status.active <;>
    simp [hpi, hr, hstv, endBattleEarlyCore]

theorem foldr_effects_oracle (l : List (String × Battle)) (sockId : String) (m : Bool) :
    (List.foldr Effects.append {}
      (l.map (fun e => (disconnectBattleStep sockId m e.1 e.2).2))).oracle = [] := by
  induction l with
  | nil => rfl
  | cons a t ih =>
    simp only [List.map_cons, List.foldr_cons, Effects.append]
    rw [disconnectBattleStep_oracle, ih]
    rfl

theorem disconnectHandler_no_oracle (s : ServerState) (sockId : String) :
    (disconnectHandler s sockId).2.oracle = [] := by
  unfold disconnectHandler
  dsimp only
  exact foldr_effects_oracle s.battles sockId s.mongoEnabled

theorem foldr_effects_cleanups_mem (l : List (String × Battle)) (sockId : String)
    (m : Bool) (e0 : String × Battle) (he0 : e0 ∈ l) (x : String)
    (hx : x ∈ (disconnectBattleStep sockId m e0.1 e0.2).2.cleanups) :
    x ∈ (List.foldr Effects.append {}
      (l.map (fun e => (disconnectBattleStep sockId m e.1 e.2).2))).cleanups := by
  induction l with
  | nil => simp at he0
  | cons a t ih =>
    simp only [List.map_cons, List.foldr_cons, Effects.append]
    rcases List.mem_cons.mp he0 with h1 | h2
    · subst h1
      exact List.mem_append_left _ hx
    · exact List.mem_append_right _ (ih h2)

theorem mapGet_mem (l : List (String × Battle)) (k : String) (b : Battle)
    (h : mapGet l k = some b) : (k, b) ∈ l := by
  unfold mapGet at h
  rcases hf : l.find? (fun e => e.1 = k) with _ | e
  · rw [hf] at h
    simp at h
  · rw [hf] at h
    simp only [Option.map_some', Option.some.injEq] at h
    have hmem := List.mem_of_find?_eq_some hf
    have hpred := List.find?_some hf
    simp only [decide_eq_true_eq] at hpred
    cases e with
    | mk e1 e2 =>
      simp only at hpred h
      subst hpred
      subst h
      exact hmem

/-- C6: a player disconnecting from, or explicitly leaving, an active
session triggers the forfeit path: the session ends immediately, the
remaining player is recorded as winner with maximal 10/10/10 (total 30)
scores while the leaver holds zero scores, the judging oracle is never
invoked, and the scheduled grace-period cleanup removes the session from
the directory. -/
theorem c6_disconnect_or_leave_forfeit (s : ServerState) (battleId : String) (b : Battle)
    (x y : Player)
    (hnd : (s.battles.map Prod.fst).Nodup)
    (hb : mapGet s.battles battleId = some b)
    (hst : b.status = Status.active)
    (hpl : b.players = [x, y])
    (hsid : x.socketId ≠ y.socketId)
    (hid : x.id ≠ y.id) :
    (∃ b2, mapGet (disconnectHandler s y.socketId).1.battles battleId = some b2 ∧
      b2.status = Status.ended ∧
      (∃ res, b2.result = some res ∧ res.winnerId = x.id ∧
        res.winnerUsername = x.username ∧
        res.scoresPlayer1 = maxEarlyScore ∧ res.scoresPlayer2 = zeroEarlyScore)) ∧
    (∃ b2, mapGet (disconnectHandler s x.socketId).1.battles battleId = some b2 ∧
      b2.status = Status.ended ∧
      (∃ res, b2.result = some res ∧ res.winnerId = y.id ∧
        res.scoresPlayer1 = zeroEarlyScore ∧ res.scoresPlayer2 = maxEarlyScore)) ∧
    (disconnectHandler s y.socketId).2.oracle = [] ∧
    battleId ∈ (disconnectHandler s y.socketId).2.cleanups ∧
    mapGet (applyCleanup (disconnectHandler s y.socketId).1 battleId).battles battleId =
      Option.none ∧
    (∃ b2, mapGet (leaveBattle s y.socketId battleId).1.battles battleId = some b2 ∧
      b2.status = Status.ended ∧
      (∃ res, b2.result = some res ∧ res.winnerId = x.id ∧
        res.winnerUsername = x.username ∧
        res.scoresPlayer1 = maxEarlyScore ∧ res.scoresPlayer2 = zeroEarlyScore)) ∧
    (leaveBattle s y.socketId battleId).2.oracle = [] ∧
    battleId ∈ (leaveBattle s y.socketId battleId).2.cleanups ∧
    mapGet (applyCleanup (leaveBattle s y.socketId battleId).1 battleId).battles battleId =
      Option.none := by
  have hpi : b.players.findIdx? (fun p => p.socketId == y.socketId) = some 1 := by
    rw [hpl]
    simp [List.findIdx?_cons, hsid]
  have hr : b.players.find? (fun p => p.socketId != y.socketId) = some x := by
    rw [hpl]
    simp [List.find?_cons, hsid]
  have hpi2 : b.players.findIdx? (fun p => p.socketId == x.socketId) = some 0 := by
    rw [hpl]
    simp [List.findIdx?_cons]
  have hr2 : b.players.find? (fun p => p.socketId != x.socketId) = some y := by
    rw [hpl]
    simp [List.find?_cons, Ne.symm hsid]
  have hwin : b.players.findIdx? (fun p => p.id == x.id) = some 0 := by
    rw [hpl]
    simp [List.findIdx?_cons]
  have hwin2 : b.players.findIdx? (fun p => p.id == y.id) = some 1 := by
    rw [hpl]
    simp [List.findIdx?_cons, hid]
  have hlp : b.players.getD 1 default = y := by
    rw [hpl]
    rfl
  have hne : b.status ≠ Status.ended := by
    rw [hst]
    decide
  have hlv : leaveBattle s y.socketId battleId =
      endBattleEarly s battleId
        (y.username ++ " forfeited the battle. Victory goes to " ++
          x.username ++ "!") x y := by
    unfold leaveBattle
    rw [hb]
    try dsimp only
    rw [hpi]
    try dsimp only
    rw [if_pos ⟨rfl, hst⟩]
    rw [hr]
    try dsimp only
    simp only [Option.getD_some]
    rw [hlp]
  refine ⟨?_, ?_, ?_, ?_, ?_, ?_, ?_, ?_, ?_⟩
  · rw [disconnectHandler_battles_get s y.socketId battleId b hnd hb]
    unfold disconnectBattleStep
    rw [hpi]
    try dsimp only
    rw [hr]
    try dsimp only
    rw [if_pos hst]
    unfold endBattleEarlyCore
    try dsimp only
    rw [hwin]
    try dsimp only
    refine ⟨_, rfl, rfl, _, rfl, rfl, rfl, ?_, ?_⟩
    · simp
    · norm_num
  · rw [disconnectHandler_battles_get s x.socketId battleId b hnd hb]
    unfold disconnectBattleStep
    rw [hpi2]
    try dsimp only
    rw [hr2]
    try dsimp only
    rw [if_pos hst]
    unfold endBattleEarlyCore
    try dsimp only
    rw [hwin2]
    try dsimp only
    refine ⟨_, rfl, rfl, _, rfl, rfl, ?_, ?_⟩
    · norm_num
    · simp
  · exact disconnectHandler_no_oracle s y.socketId
  · unfold disconnectHandler
    try dsimp only
    refine foldr_effects_cleanups_mem s.battles y.socketId s.mongoEnabled
      (battleId, b) (mapGet_mem s.battles battleId b hb) battleId ?_
    unfold disconnectBattleStep
    try dsimp only
    rw [hpi]
    try dsimp only
    rw [hr]
    try dsimp only
    rw [if_pos hst]
    unfold endBattleEarlyCore
    try dsimp only
    simp
  · exact mapGet_mapDelete_self _ _
  · rw [hlv]
    unfold endBattleEarly
    rw [hb]
    try dsimp only
    rw [if_neg hne]
    try dsimp only
    unfold endBattleEarlyCore
    try dsimp only
    rw [hwin]
    try dsimp only
    refine ⟨_, mapGet_mapSet_self _ _ _, rfl, _, rfl, rfl, rfl, ?_, ?_⟩
    · simp
    · norm_num
  · rw [hlv]
    unfold endBattleEarly
    rw [hb]
    try dsimp only
    rw [if_neg hne]
    try dsimp only
    rfl
  · rw [hlv]
    unfold endBattleEarly
    rw [hb]
    try dsimp only
    rw [if_neg hne]
    try dsimp only
    unfold endBattleEarlyCore
    try dsimp only
    simp
  · rw [hlv]
    unfold endBattleEarly
    rw [hb]
    try dsimp only
    rw [if_neg hne]
    try dsimp only
    exact mapGet_mapDelete_self _ _

/-- C6 witness: player 2 of the concrete active battle disconnects (or
leaves via `leaveBattle`); the remaining player wins 30-0 with no oracle
call, and the scheduled cleanup purges the battle. -/
theorem c6_disconnect_or_leave_forfeit_witness :
    ((c4State.battles.map Prod.fst).Nodup ∧
     mapGet c4State.battles "b1" = some finalRoundBattle ∧
     finalRoundBattle.status = Status.active ∧
     finalRoundBattle.players = [demoP1, demoP2] ∧
     demoP1.socketId ≠ demoP2.socketId ∧ demoP1.id ≠ demoP2.id) ∧
    ((∃ b2, mapGet (disconnectHandler c4State demoP2.socketId).1.battles "b1" = some b2 ∧
      b2.status = Status.ended ∧
      (∃ res, b2.result = some res ∧ res.winnerId = demoP1.id ∧
        res.winnerUsername = demoP1.username ∧
        res.scoresPlayer1 = maxEarlyScore ∧ res.scoresPlayer2 = zeroEarlyScore)) ∧
    (∃ b2, mapGet (disconnectHandler c4State demoP1.socketId).1.battles "b1" = some b2 ∧
      b2.status = Status.ended ∧
      (∃ res, b2.result = some res ∧ res.winnerId = demoP2.id ∧
        res.scoresPlayer1 = zeroEarlyScore ∧ res.scoresPlayer2 = maxEarlyScore)) ∧
    (disconnectHandler c4State demoP2.socketId).2.oracle = [] ∧
    "b1" ∈ (disconnectHandler c4State demoP2.socketId).2.cleanups ∧
    mapGet (applyCleanup (disconnectHandler c4State demoP2.socketId).1 "b1").battles "b1" =
      Option.none ∧
    (∃ b2, mapGet (leaveBattle c4State demoP2.socketId "b1").1.battles "b1" = some b2 ∧
      b2.status = Status.ended ∧
      (∃ res, b2.result = some res ∧ res.winnerId = demoP1.id ∧
        res.winnerUsername = demoP1.username ∧
        res.scoresPlayer1 = maxEarlyScore ∧ res.scoresPlayer2 = zeroEarlyScore)) ∧
    (leaveBattle c4State demoP2.socketId "b1").2.oracle = [] ∧
    "b1" ∈ (leaveBattle c4State demoP2.socketId "b1").2.cleanups ∧
    mapGet (applyCleanup (leaveBattle c4State demoP2.socketId "b1").1 "b1").battles "b1" =
      Option.none) :=
  ⟨⟨by decide, rfl, rfl, rfl, by decide, by decide⟩,
   c6_disconnect_or_leave_forfeit c4State "b1" finalRoundBattle demoP1 demoP2
     (by decide) rfl rfl rfl (by decide) (by decide)⟩

/-! ### Claim C1 -/

/-- A synthetic opponent for the C1 demonstration. -/
def c1Bot : Player :=
  { id := "bt1", username := "RoboRival", socketId := "bt1", ipHash := Option.none
    isBot := true }

/-- An active bot battle in round 1. -/
def c1Battle : Battle :=
  { id := "bb", players := [demoP1, c1Bot], topic := demoTopic
    playerSides := [("s1", Side.option1), ("bt1", Side.option2)]
    currentRound := 1, maxRounds := 3, roundStartTime := 0, status := .active
    messages := [], spectators := [], reactions := []
    isBotBattle := true, botPlayerId := some "bt1", timerId := some 1 }

/-- Server state holding the active bot battle. -/
def c1State : ServerState :=
  { battles := [("bb", c1Battle)], waitingPlayers := [], waitingSet := []
    botTimeouts := [], mongoEnabled := false }

/-- C1 (code bug demonstration): the bot-reply continuation validates the
session's status only **before** the `await generateBotRoast(...)`
suspension, not after.  Concretely: the reply timer is armed and fires
while the battle is active (guard passes), the human disconnects and the
session ends while the oracle call is in flight, and when the
continuation resumes it still appends the bot's Line to the **ended**
session's transcript and broadcasts `newMessage` — violating "once
status = ended, no further Lines may occur". -/
theorem c1_stale_bot_continuation_appends_after_end :
    ∃ ctx,
      (scheduleBotMessage c1State "bb" 9).2 = some ctx ∧
      botReplyGuard (scheduleBotMessage c1State "bb" 9).1 ctx = true ∧
      ((mapGet (endBattleEarly (scheduleBotMessage c1State "bb" 9).1 "bb" "left"
          demoP1 c1Bot).1.battles "bb").map Battle.status = some Status.ended) ∧
      ((mapGet (botReplyResume (endBattleEarly (scheduleBotMessage c1State "bb" 9).1
            "bb" "left" demoP1 c1Bot).1 ctx "burn" 99).1.battles "bb").map
          (fun b => (b.status, b.messages.length)) = some (Status.ended, 1)) ∧
      (botReplyResume (endBattleEarly (scheduleBotMessage c1State "bb" 9).1
          "bb" "left" demoP1 c1Bot).1 ctx "burn" 99).2.events ≠ [] :=
  ⟨⟨"bb", c1Bot, demoP1⟩, by decide, by decide, by decide, by decide, by decide⟩

/-! ### Claim C7: round monotonicity and one-way status -/

/-- The fields of a battle that C7 tracks: current round, max rounds,
status. -/
def battleCore (b : Battle) : Nat × Nat × Status :=
  (b.currentRound, b.maxRounds, b.status)

/-- A task that leaves every battle's tracked core unchanged
(it may touch transcripts, feeds, timers, results, or queue state). -/
def CoreEq (s s2 : ServerState) : Prop :=
  ∀ k, (mapGet s2.battles k).map battleCore = (mapGet s.battles k).map battleCore

/-- What one event-loop task must satisfy for C7: existing battles keep
their max-rounds, never decrease their round, stay within bounds, and
never leave `ended`; battles appearing fresh start at round 1 of 3,
`active`. -/
def StepOk (s s2 : ServerState) : Prop :=
  (∀ k b b2, mapGet s.battles k = some b → mapGet s2.battles k = some b2 →
    b.currentRound ≤ b2.currentRound ∧ b2.maxRounds = b.maxRounds ∧
    (1 ≤ b.currentRound ∧ b.currentRound ≤ b.maxRounds →
      1 ≤ b2.currentRound ∧ b2.currentRound ≤ b2.maxRounds) ∧
    (b.status = Status.ended → b2.status = Status.ended)) ∧
  (∀ k b2, mapGet s.battles k = Option.none → mapGet s2.battles k = some b2 →
    b2.currentRound = 1 ∧ b2.maxRounds = 3 ∧ b2.status = Status.active)

theorem stepOk_of_battles_eq (s s2 : ServerState) (h : s2.battles = s.battles) :
    StepOk s s2 := by
  constructor
  · intro k b b2 hb hb2
    rw [h, hb] at hb2
    injection hb2 with hb2
    subst hb2
    exact ⟨le_refl _, rfl, fun hh => hh, fun hh => hh⟩
  · intro k b2 hn hb2
    rw [h, hn] at hb2
    exact absurd hb2 (by simp)

theorem coreEq_of_battles_eq (s s2 : ServerState) (h : s2.battles = s.battles) :
    CoreEq s s2 := by
  intro k
  rw [h]

theorem coreEq_stepOk (s s2 : ServerState) (h : CoreEq s s2) : StepOk s s2 := by
  constructor
  · intro k b b2 hb hb2
    have hk := h k
    rw [hb, hb2] at hk
    simp only [Option.map_some', Option.some.injEq] at hk
    have h1 : b2.currentRound = b.currentRound := congrArg Prod.fst hk
    have h2 : b2.maxRounds = b.maxRounds := congrArg (fun t => t.2.1) hk
    have h3 : b2.status = b.status := congrArg (fun t => t.2.2) hk
    refine ⟨le_of_eq h1.symm, h2, fun hh => ?_, fun hh => h3.trans hh⟩
    rw [h1, h2]
    exact hh
  · intro k b2 hn hb2
    have hk := h k
    rw [hn, hb2] at hk
    simp at hk

theorem coreEq_trans (s s2 s3 : ServerState)
    (h1 : CoreEq s s2) (h2 : CoreEq s2 s3) : CoreEq s s3 := by
  intro k
  rw [h2 k, h1 k]

theorem stepOk_coreEq_trans (s s2 s3 : ServerState)
    (h1 : StepOk s s2) (h2 : CoreEq s2 s3) : StepOk s s3 := by
  constructor
  · intro k b b3 hb hb3
    have hk := h2 k
    rw [hb3] at hk
    rcases hg : mapGet s2.battles k with _ | b2
    · rw [hg] at hk
      simp at hk
    · rw [hg] at hk
      simp only [Option.map_some', Option.some.injEq] at hk
      have hp := h1.1 k b b2 hb hg
      have h1r : b3.currentRound = b2.currentRound := congrArg Prod.fst hk
      have h2r : b3.maxRounds = b2.maxRounds := congrArg (fun t => t.2.1) hk
      have h3r : b3.status = b2.status := congrArg (fun t => t.2.2) hk
      refine ⟨le_trans hp.1 (le_of_eq h1r.symm), h2r.trans hp.2.1, fun hh => ?_,
        fun hh => h3r.trans (hp.2.2.2 hh)⟩
      rw [h1r, h2r]
      exact hp.2.2.1 hh
  · intro k b3 hn hb3
    have hk := h2 k
    rw [hb3] at hk
    rcases hg : mapGet s2.battles k with _ | b2
    · rw [hg] at hk
      simp at hk
    · rw [hg] at hk
      simp only [Option.map_some', Option.some.injEq] at hk
      have hp := h1.2 k b2 hn hg
      have h1r : b3.currentRound = b2.currentRound := congrArg Prod.fst hk
      have h2r : b3.maxRounds = b2.maxRounds := congrArg (fun t => t.2.1) hk
      have h3r : b3.status = b2.status := congrArg (fun t => t.2.2) hk
      rw [h1r, h2r, h3r]
      exact hp

theorem coreEq_stepOk_trans (s s2 s3 : ServerState)
    (h1 : CoreEq s s2) (h2 : StepOk s2 s3) : StepOk s s3 := by
  constructor
  · intro k b b3 hb hb3
    have hk := h1 k
    rw [hb] at hk
    rcases hg : mapGet s2.battles k with _ | b2
    · rw [hg] at hk
      simp at hk
    · rw [hg] at hk
      simp only [Option.map_some', Option.some.injEq] at hk
      have hp := h2.1 k b2 b3 hg hb3
      have h1r : b2.currentRound = b.currentRound := congrArg Prod.fst hk
      have h2r : b2.maxRounds = b.maxRounds := congrArg (fun t => t.2.1) hk
      have h3r : b2.status = b.status := congrArg (fun t => t.2.2) hk
      refine ⟨le_trans (le_of_eq h1r.symm) hp.1, hp.2.1.trans h2r, fun hh => ?_,
        fun hh => hp.2.2.2 (h3r.trans hh)⟩
      apply hp.2.2.1
      rw [h1r, h2r]
      exact hh
  · intro k b3 hn hb3
    have hk := h1 k
    rw [hn] at hk
    rcases hg : mapGet s2.battles k with _ | b2
    · rw [hg] at hk
      exact h2.2 k b3 hg hb3
    · rw [hg] at hk
      simp at hk

theorem coreEq_of_mapSet_sameCore (s : ServerState) (bid : String) (b v : Battle)
    (hb : mapGet s.battles bid = some b) (hcore : battleCore v = battleCore b) :
    CoreEq s { s with battles := mapSet s.battles bid v } := by
  intro k
  by_cases hk : k = bid
  · subst hk
    simp only [mapGet_mapSet_self, hb, Option.map_some', hcore]
  · simp only [mapGet_mapSet_ne s.battles bid k v hk]

theorem stepOk_of_mapSet (s : ServerState) (bid : String) (b v : Battle)
    (hb : mapGet s.battles bid = some b)
    (hmono : b.currentRound ≤ v.currentRound)
    (hmax : v.maxRounds = b.maxRounds)
    (hbound : 1 ≤ b.currentRound ∧ b.currentRound ≤ b.maxRounds →
      1 ≤ v.currentRound ∧ v.currentRound ≤ v.maxRounds)
    (hstatus : b.status = Status.ended → v.status = Status.ended) :
    StepOk s { s with battles := mapSet s.battles bid v } := by
  constructor
  · intro k b1 b2 hb1 hb2
    by_cases hk : k = bid
    · subst hk
      rw [hb] at hb1
      injection hb1 with hb1
      subst hb1
      rw [mapGet_mapSet_self] at hb2
      injection hb2 with hb2
      subst hb2
      exact ⟨hmono, hmax, hbound, hstatus⟩
    · rw [mapGet_mapSet_ne s.battles bid k v hk, hb1] at hb2
      injection hb2 with hb2
      subst hb2
      exact ⟨le_refl _, rfl, fun hh => hh, fun hh => hh⟩
  · intro k b2 hn hb2
    by_cases hk : k = bid
    · subst hk
      rw [hn] at hb
      exact absurd hb (by simp)
    · rw [mapGet_mapSet_ne s.battles bid k v hk, hn] at hb2
      exact absurd hb2 (by simp)

theorem stepOk_of_mapDelete (s : ServerState) (bid : String) :
    StepOk s { s with battles := mapDelete s.battles bid } := by
  constructor
  · intro k b1 b2 hb1 hb2
    by_cases hk : k = bid
    · subst hk
      rw [mapGet_mapDelete_self] at hb2
      exact absurd hb2 (by simp)
    · rw [mapGet_mapDelete_ne s.battles bid k hk, hb1] at hb2
      injection hb2 with hb2
      subst hb2
      exact ⟨le_refl _, rfl, fun hh => hh, fun hh => hh⟩
  · intro k b2 hn hb2
    by_cases hk : k = bid
    · subst hk
      rw [mapGet_mapDelete_self] at hb2
      exact absurd hb2 (by simp)
    · rw [mapGet_mapDelete_ne s.battles bid k hk, hn] at hb2
      exact absurd hb2 (by simp)

theorem mapGet_of_mem_nodup (l : List (String × Battle)) (k : String) (b : Battle)
    (hmem : (k, b) ∈ l) (hnd : (l.map Prod.fst).Nodup) : mapGet l k = some b := by
  induction l with
  | nil => simp at hmem
  | cons a t ih =>
    rw [List.map_cons, List.nodup_cons] at hnd
    obtain ⟨hahd, htnd⟩ := hnd
    rcases List.mem_cons.mp hmem with h1 | h2
    · rw [← h1, mapGet_cons]
      simp
    · rw [mapGet_cons]
      have hkt : k ∈ t.map Prod.fst := List.mem_map.mpr ⟨(k, b), h2, rfl⟩
      have hak : ¬ (a.1 = k) := fun hc => hahd (hc ▸ hkt)
      rw [if_neg hak]
      exact ih h2 htnd

theorem scheduleBotMessage_coreEq (s : ServerState) (bid : String) (tk : Nat) :
    CoreEq s (scheduleBotMessage s bid tk).1 := by
  unfold scheduleBotMessage
  split
  · exact coreEq_of_battles_eq _ _ rfl
  · rename_i b hb
    split
    · exact coreEq_of_battles_eq _ _ rfl
    · split
      · exact coreEq_of_mapSet_sameCore s bid b _ hb rfl
      · exact coreEq_of_mapSet_sameCore s bid b _ hb rfl

theorem sendMessage_coreEq (s : ServerState) (sockId bid text username : String)
    (now btk : Nat) : CoreEq s (sendMessage s sockId bid text username now btk).1 := by
  unfold sendMessage
  split
  · exact coreEq_of_battles_eq _ _ rfl
  · rename_i battle hb
    split
    · exact coreEq_of_battles_eq _ _ rfl
    · split
      · split
        · dsimp only
          split
          · refine coreEq_trans _ _ _ ?_ (scheduleBotMessage_coreEq _ bid btk)
            exact coreEq_of_mapSet_sameCore s bid battle _ hb rfl
          · exact coreEq_of_mapSet_sameCore s bid battle _ hb rfl
        · exact coreEq_of_mapSet_sameCore s bid battle _ hb rfl
      · exact coreEq_of_mapSet_sameCore s bid battle _ hb rfl

theorem joinSpectator_coreEq (s : ServerState) (sockId bid username : String)
    (now : Nat) : CoreEq s (joinSpectator s sockId bid username now).1 := by
  unfold joinSpectator
  split
  · exact coreEq_of_battles_eq _ _ rfl
  · rename_i battle hb
    split
    · exact coreEq_of_battles_eq _ _ rfl
    · split
      · exact coreEq_of_battles_eq _ _ rfl
      · split
        · exact coreEq_of_battles_eq _ _ rfl
        · exact coreEq_of_mapSet_sameCore s bid battle _ hb rfl

theorem sendReaction_coreEq (s : ServerState) (sockId bid emoji : String)
    (now : Nat) : CoreEq s (sendReaction s sockId bid emoji now).1 := by
  unfold sendReaction
  split
  · exact coreEq_of_battles_eq _ _ rfl
  · rename_i battle hb
    split
    · exact coreEq_of_battles_eq _ _ rfl
    · split
      · exact coreEq_of_battles_eq _ _ rfl
      · split
        · exact coreEq_of_battles_eq _ _ rfl
        · exact coreEq_of_mapSet_sameCore s bid battle _ hb rfl

theorem reactionExpire_coreEq (s : ServerState) (bid : String) (ts : Nat) :
    CoreEq s (reactionExpire s bid ts).1 := by
  unfold reactionExpire
  split
  · rename_i battle hb
    exact coreEq_of_mapSet_sameCore s bid battle _ hb rfl
  · exact coreEq_of_battles_eq _ _ rfl

theorem botReplyResume_coreEq (s : ServerState) (ctx : BotCtx) (text : String)
    (now : Nat) : CoreEq s (botReplyResume s ctx text now).1 := by
  unfold botReplyResume
  split
  · rename_i current hb
    exact coreEq_of_mapSet_sameCore s ctx.battleId current _ hb rfl
  · exact coreEq_of_battles_eq _ _ rfl

theorem endBattleResume_coreEq (s : ServerState) (ctx : JudgeCtx)
    (j? : Option JudgmentResult) (ridx : Nat) :
    CoreEq s (endBattleResume s ctx j? ridx).1 := by
  unfold endBattleResume
  rcases j? with _ | j
  · dsimp only
    split
    · rename_i b hb
      exact coreEq_of_mapSet_sameCore s ctx.battleId b _ hb rfl
    · exact coreEq_of_battles_eq _ _ rfl
  · dsimp only
    split
    · rename_i b hb
      exact coreEq_of_mapSet_sameCore s ctx.battleId b _ hb rfl
    · exact coreEq_of_battles_eq _ _ rfl

theorem tryAssignBot_battles_eq (live : List String) (s : ServerState)
    (sockId : String) (now idRand nameIdx : Nat) :
    (tryAssignBotToWaitingPlayer live s sockId now idRand nameIdx).1.battles = s.battles := by
  unfold tryAssignBotToWaitingPlayer
  dsimp only
  repeat' split
  all_goals rfl

theorem findMatch_coreEq (live : List String) (s : ServerState)
    (sockId ipHash username : String) (now tk : Nat)
    (hnd : (s.battles.map Prod.fst).Nodup) :
    CoreEq s (findMatch live s sockId ipHash username now tk).1 := by
  unfold findMatch
  dsimp only
  split
  case _ entry heq =>
    have hmem : entry ∈ s.battles := by
      by_cases hh : ipHash ≠ ""
      · rw [if_pos hh] at heq
        exact List.mem_of_find?_eq_some heq
      · rw [if_neg hh] at heq
        exact absurd heq (by simp)
    have hget : mapGet s.battles entry.1 = some entry.2 :=
      mapGet_of_mem_nodup s.battles entry.1 entry.2 hmem hnd
    dsimp only
    split
    · split
      · exact coreEq_of_mapSet_sameCore s entry.1 entry.2 _ hget rfl
      · exact coreEq_of_mapSet_sameCore s entry.1 entry.2 _ hget rfl
    · exact coreEq_of_mapSet_sameCore s entry.1 entry.2 _ hget rfl
  case _ heq =>
    split
    · exact coreEq_of_battles_eq _ _ rfl
    · exact coreEq_of_battles_eq _ _ rfl

theorem mapGet_none_not_mem (l : List (String × Battle)) (k : String)
    (h : mapGet l k = Option.none) : k ∉ l.map Prod.fst := by
  intro hk
  obtain ⟨e, he, hek⟩ := List.mem_map.mp hk
  have hsome : (l.find? (fun e => e.1 = k)).isSome :=
    List.find?_isSome.mpr ⟨e, he, by simp [hek]⟩
  unfold mapGet at h
  rcases hf : l.find? (fun e => e.1 = k) with _ | e2
  · rw [hf] at hsome
    simp at hsome
  · rw [hf] at h
    simp at h

theorem endBattleEarly_stepOk (s : ServerState) (bid reason : String)
    (w l : Player) : StepOk s (endBattleEarly s bid reason w l).1 := by
  unfold endBattleEarly
  split
  · exact stepOk_of_battles_eq _ _ rfl
  · rename_i b hb
    split
    · exact stepOk_of_battles_eq _ _ rfl
    · unfold endBattleEarlyCore
      dsimp only
      exact stepOk_of_mapSet s bid b _ hb (Nat.le.refl) rfl (fun hh => hh) (fun _ => rfl)

theorem endBattleSync_stepOk (s : ServerState) (bid : String) :
    StepOk s (endBattleSync s bid).1 := by
  unfold endBattleSync
  split
  · exact stepOk_of_battles_eq _ _ rfl
  · rename_i b hb
    dsimp only
    split
    · exact stepOk_of_mapDelete s bid
    · exact stepOk_of_mapSet s bid b _ hb (Nat.le.refl) rfl (fun hh => hh) (fun _ => rfl)

theorem nextRound_stepOk (s : ServerState) (bid : String) (now tk btk : Nat) :
    StepOk s (nextRound s bid now tk btk).1 := by
  unfold nextRound
  split
  · exact stepOk_of_battles_eq _ _ rfl
  · rename_i b hb
    split
    · exact stepOk_of_battles_eq _ _ rfl
    · dsimp only
      split
      case isTrue hlt =>
        dsimp only
        split
        · refine stepOk_coreEq_trans _ _ _ ?_ (scheduleBotMessage_coreEq _ bid btk)
          exact stepOk_of_mapSet s bid b _ hb (Nat.le_succ _) rfl
            (fun hh => by dsimp only; omega) (fun hh => hh)
        · exact stepOk_of_mapSet s bid b _ hb (Nat.le_succ _) rfl
            (fun hh => by dsimp only; omega) (fun hh => hh)
      case isFalse hge =>
        refine coreEq_stepOk_trans _ _ _ ?_ (endBattleSync_stepOk _ bid)
        exact coreEq_of_mapSet_sameCore s bid b _ hb rfl

theorem leaveBattle_stepOk (s : ServerState) (sockId bid : String) :
    StepOk s (leaveBattle s sockId bid).1 := by
  unfold leaveBattle
  split
  · exact stepOk_of_battles_eq _ _ rfl
  · rename_i battle hb
    split
    · dsimp only
      split
      · exact endBattleEarly_stepOk s bid _ _ _
      · exact coreEq_stepOk _ _ (coreEq_of_mapSet_sameCore s bid battle _ hb rfl)
    · dsimp only
      split
      · exact stepOk_of_battles_eq _ _ rfl
      · exact coreEq_stepOk _ _ (coreEq_of_mapSet_sameCore s bid battle _ hb rfl)

theorem disconnectBattleStep_core (sockId : String) (m : Bool) (bid : String)
    (b b2 : Battle) (h : (disconnectBattleStep sockId m bid b).1 = some b2) :
    b2.currentRound = b.currentRound ∧ b2.maxRounds = b.maxRounds ∧
    (b2.status = b.status ∨ b2.status = Status.ended) := by
  unfold disconnectBattleStep at h
  split at h
  · dsimp only at h
    split at h
    · split at h
      · unfold endBattleEarlyCore at h
        dsimp only at h
        injection h with h
        subst h
        exact ⟨rfl, rfl, Or.inr rfl⟩
      · simp at h
    · simp at h
  · injection h with h
    subst h
    exact ⟨rfl, rfl, Or.inl rfl⟩

theorem disconnectHandler_stepOk (s : ServerState) (sockId : String)
    (hnd : (s.battles.map Prod.fst).Nodup) :
    StepOk s (disconnectHandler s sockId).1 := by
  constructor
  · intro k b b2 hb hb2
    rw [disconnectHandler_battles_get s sockId k b hnd hb] at hb2
    obtain ⟨h1, h2, h3⟩ := disconnectBattleStep_core sockId s.mongoEnabled k b b2 hb2
    refine ⟨le_of_eq h1.symm, h2, fun hh => ?_, fun hh => ?_⟩
    · rw [h1, h2]
      exact hh
    · rcases h3 with h3 | h3
      · rw [h3]
        exact hh
      · exact h3
  · intro k b2 hn hb2
    have hk := mapGet_none_not_mem s.battles k hn
    unfold disconnectHandler at hb2
    dsimp only at hb2
    rw [mapGet_filterMap_none s.battles k
      (fun k2 b2 => (disconnectBattleStep sockId s.mongoEnabled k2 b2).1) hk] at hb2
    exact absurd hb2 (by simp)

theorem stepOk_of_mapSet_fresh (s : ServerState) (bid : String) (v : Battle)
    (hfresh : mapGet s.battles bid = Option.none)
    (hv : v.currentRound = 1 ∧ v.maxRounds = 3 ∧ v.status = Status.active) :
    StepOk s { s with battles := mapSet s.battles bid v } := by
  constructor
  · intro k b b2 hb hb2
    by_cases hk : k = bid
    · subst hk
      rw [hfresh] at hb
      exact absurd hb (by simp)
    · rw [mapGet_mapSet_ne s.battles bid k v hk, hb] at hb2
      injection hb2 with hb2
      subst hb2
      exact ⟨le_refl _, rfl, fun hh => hh, fun hh => hh⟩
  · intro k b2 hn hb2
    by_cases hk : k = bid
    · subst hk
      rw [mapGet_mapSet_self] at hb2
      injection hb2 with hb2
      subst hb2
      exact hv
    · rw [mapGet_mapSet_ne s.battles bid k v hk, hn] at hb2
      exact absurd hb2 (by simp)

theorem createBattle_stepOk (s : ServerState) (p1 p2 : Player) (topic : Topic)
    (bid : String) (now tk btk : Nat)
    (hfresh : mapGet s.battles bid = Option.none) :
    StepOk s (createBattle s p1 p2 topic bid now tk btk).1 := by
  unfold createBattle
  dsimp only
  split
  · refine stepOk_coreEq_trans _ _ _ ?_ (scheduleBotMessage_coreEq _ bid btk)
    exact stepOk_of_mapSet_fresh s bid _ hfresh ⟨rfl, rfl, rfl⟩
  · exact stepOk_of_mapSet_fresh s bid _ hfresh ⟨rfl, rfl, rfl⟩

/-- One event-loop task of the orchestrator, relating the server state
before the task to the state after it: the socket handlers, the timer
callbacks, and the post-await continuations.  `createBattle` carries the
freshness of its clock-derived battle id as a side condition. -/
inductive Step : ServerState → ServerState → Prop
  | findMatchStep (live : List String) (s : ServerState)
      (sockId ipHash username : String) (now tk : Nat) :
      Step s (findMatch live s sockId ipHash username now tk).1
  | sendMessageStep (s : ServerState) (sockId bid text username : String)
      (now btk : Nat) : Step s (sendMessage s sockId bid text username now btk).1
  | joinSpectatorStep (s : ServerState) (sockId bid username : String) (now : Nat) :
      Step s (joinSpectator s sockId bid username now).1
  | sendReactionStep (s : ServerState) (sockId bid emoji : String) (now : Nat) :
      Step s (sendReaction s sockId bid emoji now).1
  | reactionExpireStep (s : ServerState) (bid : String) (ts : Nat) :
      Step s (reactionExpire s bid ts).1
  | leaveBattleStep (s : ServerState) (sockId bid : String) :
      Step s (leaveBattle s sockId bid).1
  | disconnectStep (s : ServerState) (sockId : String) :
      Step s (disconnectHandler s sockId).1
  | nextRoundStep (s : ServerState) (bid : String) (now tk btk : Nat) :
      Step s (nextRound s bid now tk btk).1
  | endResumeStep (s : ServerState) (ctx : JudgeCtx) (j? : Option JudgmentResult)
      (ridx : Nat) : Step s (endBattleResume s ctx j? ridx).1
  | botResumeStep (s : ServerState) (ctx : BotCtx) (text : String) (now : Nat) :
      Step s (botReplyResume s ctx text now).1
  | scheduleBotStep (s : ServerState) (bid : String) (tk : Nat) :
      Step s (scheduleBotMessage s bid tk).1
  | tryAssignBotStep (live : List String) (s : ServerState) (sockId : String)
      (now idRand nameIdx : Nat) :
      Step s (tryAssignBotToWaitingPlayer live s sockId now idRand nameIdx).1
  | endBattleEarlyStep (s : ServerState) (bid reason : String) (w l : Player) :
      Step s (endBattleEarly s bid reason w l).1
  | createBattleStep (s : ServerState) (p1 p2 : Player) (topic : Topic) (bid : String)
      (now tk btk : Nat) (hfresh : mapGet s.battles bid = Option.none) :
      Step s (createBattle s p1 p2 topic bid now tk btk).1
  | cleanupStep (s : ServerState) (bid : String) :
      Step s (applyCleanup s bid)

/-- C7: across every event-loop task, an existing session never
decreases its current round, keeps its max-rounds, stays within the
1..maxRounds bounds it started with, and once `ended` never re-enters
`active`; a freshly created session starts at round 1 of 3, `active`. -/
theorem c7_round_monotone_status_one_way (s s2 : ServerState) (hstep : Step s s2)
    (hnd : (s.battles.map Prod.fst).Nodup) :
    (∀ k b b2, mapGet s.battles k = some b → mapGet s2.battles k = some b2 →
      b.currentRound ≤ b2.currentRound ∧ b2.maxRounds = b.maxRounds ∧
      (1 ≤ b.currentRound ∧ b.currentRound ≤ b.maxRounds →
        1 ≤ b2.currentRound ∧ b2.currentRound ≤ b2.maxRounds) ∧
      (b.status = Status.ended → b2.status = Status.ended)) ∧
    (∀ k b2, mapGet s.battles k = Option.none → mapGet s2.battles k = some b2 →
      b2.currentRound = 1 ∧ b2.maxRounds = 3 ∧ b2.status = Status.active) := by
  have hok : StepOk s s2 := by
    cases hstep with
    | findMatchStep live s sockId ipHash username now tk =>
        exact coreEq_stepOk _ _ (findMatch_coreEq live s sockId ipHash username now tk hnd)
    | sendMessageStep s sockId bid text username now btk =>
        exact coreEq_stepOk _ _ (sendMessage_coreEq s sockId bid text username now btk)
    | joinSpectatorStep s sockId bid username now =>
        exact coreEq_stepOk _ _ (joinSpectator_coreEq s sockId bid username now)
    | sendReactionStep s sockId bid emoji now =>
        exact coreEq_stepOk _ _ (sendReaction_coreEq s sockId bid emoji now)
    | reactionExpireStep s bid ts =>
        exact coreEq_stepOk _ _ (reactionExpire_coreEq s bid ts)
    | leaveBattleStep s sockId bid =>
        exact leaveBattle_stepOk s sockId bid
    | disconnectStep s sockId =>
        exact disconnectHandler_stepOk s sockId hnd
    | nextRoundStep s bid now tk btk =>
        exact nextRound_stepOk s bid now tk btk
    | endResumeStep s ctx j? ridx =>
        exact coreEq_stepOk _ _ (endBattleResume_coreEq s ctx j? ridx)
    | botResumeStep s ctx text now =>
        exact coreEq_stepOk _ _ (botReplyResume_coreEq s ctx text now)
    | scheduleBotStep s bid tk =>
        exact coreEq_stepOk _ _ (scheduleBotMessage_coreEq s bid tk)
    | tryAssignBotStep live s sockId now idRand nameIdx =>
        exact stepOk_of_battles_eq _ _ (tryAssignBot_battles_eq live s sockId now idRand nameIdx)
    | endBattleEarlyStep s bid reason w l =>
        exact endBattleEarly_stepOk s bid reason w l
    | createBattleStep s p1 p2 topic bid now tk btk hfresh =>
        exact createBattle_stepOk s p1 p2 topic bid now tk btk hfresh
    | cleanupStep s bid =>
        exact stepOk_of_mapDelete s bid
  exact hok

/-- C7 witness: the round timer fires on the concrete round-1 bot battle
(one event-loop task); the tracked invariants hold across it. -/
theorem c7_round_monotone_status_one_way_witness :
    (c1State.battles.map Prod.fst).Nodup ∧
    ((∀ k b b2, mapGet c1State.battles k = some b →
        mapGet (nextRound c1State "bb" 7 8 9).1.battles k = some b2 →
        b.currentRound ≤ b2.currentRound ∧ b2.maxRounds = b.maxRounds ∧
        (1 ≤ b.currentRound ∧ b.currentRound ≤ b.maxRounds →
          1 ≤ b2.currentRound ∧ b2.currentRound ≤ b2.maxRounds) ∧
        (b.status = Status.ended → b2.status = Status.ended)) ∧
    (∀ k b2, mapGet c1State.battles k = Option.none →
        mapGet (nextRound c1State "bb" 7 8 9).1.battles k = some b2 →
        b2.currentRound = 1 ∧ b2.maxRounds = 3 ∧ b2.status = Status.active)) :=
  ⟨by decide,
   c7_round_monotone_status_one_way c1State (nextRound c1State "bb" 7 8 9).1
     (Step.nextRoundStep c1State "bb" 7 8 9) (by decide)⟩

end RoastArena
